import Mathlib

/-!
Verification of the AquaForecast backend (model lifecycle, training orchestration,
provenance tracking and the training event bus) against its specification.

The definitions below are a shallow embedding of the Python sources:
  - `app/services/model_service.py` (registry operations),
  - `app/services/model_training_service.py` (training pipeline),
  - `app/api/v1/endpoints/models.py` (orchestrator endpoints / background thread),
  - `app/core/events.py` (event bus).
Database tables are lists of rows; SQL `Numeric` columns are rationals; timestamps are
integers; uuid keys are naturals. Library calls whose numeric behaviour lives outside the
repository (pandas datetime accessors, numpy trigonometry, IsolationForest, sklearn and
keras) are taken as explicit function parameters, mirroring the source call shapes.
-/

set_option linter.unusedVariables false
set_option maxRecDepth 100000
set_option maxHeartbeats 1000000

namespace AquaForecast

/-- Status enum of `ModelVersion` rows (`ModelStatus` in `app/models/model_version.py`). -/
inductive ModelStatus where
  | training
  | completed
  | failed
  | deployed
  | archived
  deriving DecidableEq

/-- A row of the `model_versions` table, restricted to the columns the verified
properties touch (artifact URLs, sizes and JSON documents are omitted). -/
structure ModelVersion where
  id : Nat
  version : String
  base_model_id : Option Nat
  training_data_count : Option Nat
  status : ModelStatus
  is_deployed : Bool
  is_active : Bool
  min_app_version : Option String
  created_at : Int
  deployed_at : Option Int
  notes : Option String
  deriving DecidableEq

instance {ε α : Type} [DecidableEq ε] [DecidableEq α] : DecidableEq (Except ε α) :=
  fun x y =>
    match x, y with
    | Except.ok a, Except.ok b =>
      if h : a = b then isTrue (by rw [h])
      else isFalse (by intro hc; injection hc with hc; exact h hc)
    | Except.error a, Except.error b =>
      if h : a = b then isTrue (by rw [h])
      else isFalse (by intro hc; injection hc with hc; exact h hc)
    | Except.ok _, Except.error _ => isFalse (by intro hc; exact Except.noConfusion hc)
    | Except.error _, Except.ok _ => isFalse (by intro hc; exact Except.noConfusion hc)

/-- Python string truthiness on an optional string column: present and non-empty. -/
def strTruthy : Option String → Bool
  | none => false
  | some s => !s.isEmpty

/-- Notes update performed by `deploy_model` (`model_service.py` line 134-135):
appended only when `notes` is truthy, with the existing notes kept when truthy. -/
def appendDeploymentNotes (old notes : Option String) : Option String :=
  match notes with
  | none => old
  | some n =>
    if n.isEmpty then old
    else
      match old with
      | some o =>
        if o.isEmpty then some ("Deployment: " ++ n)
        else some (o ++ "\n\nDeployment: " ++ n)
      | none => some ("Deployment: " ++ n)

/-- `ModelService.get_model_by_id`: first row whose id matches. -/
def get_model_by_id (db : List ModelVersion) (model_id : Nat) : Option ModelVersion :=
  db.find? (fun m => m.id == model_id)

/-- The per-row effect of the "unset ALL currently deployed models" loop in
`deploy_model` (`model_service.py` lines 117-128). -/
def undeployUpdate (m : ModelVersion) : ModelVersion :=
  if m.is_deployed then { m with is_deployed := false, status := ModelStatus.completed } else m

/-- The per-row effect of deploying the target model (`model_service.py` lines 130-135). -/
def deployUpdate (model_id : Nat) (notes : Option String) (now : Int)
    (m : ModelVersion) : ModelVersion :=
  if m.id == model_id then
    { m with is_deployed := true, status := ModelStatus.deployed, deployed_at := some now,
             notes := appendDeploymentNotes m.notes notes }
  else m

/-- `ModelService.deploy_model`: not-found and non-COMPLETED failures, the no-op
early return for an already deployed target, then unset-all followed by set-one. -/
def deploy_model (db : List ModelVersion) (model_id : Nat) (notes : Option String)
    (now : Int) : Except String (List ModelVersion) :=
  match get_model_by_id db model_id with
  | none => Except.error "Model not found"
  | some model =>
    if model.status ≠ ModelStatus.completed then
      Except.error "Can only deploy completed models"
    else if model.is_deployed then
      Except.ok db
    else
      Except.ok ((db.map undeployUpdate).map (deployUpdate model_id notes now))

/-- `ModelService.undeploy_model`: no-op when the target is not deployed, otherwise
flips it back to deployed=false / COMPLETED. -/
def undeploy_model (db : List ModelVersion) (model_id : Nat) :
    Except String (List ModelVersion) :=
  match get_model_by_id db model_id with
  | none => Except.error "Model not found"
  | some model =>
    if model.is_deployed then
      Except.ok (db.map (fun m =>
        if m.id == model_id then
          { m with is_deployed := false, status := ModelStatus.completed }
        else m))
    else Except.ok db

/-- `ModelService.archive_model`: refuses a deployed target, otherwise sets
status=ARCHIVED and is_active=false. -/
def archive_model (db : List ModelVersion) (model_id : Nat) :
    Except String (List ModelVersion) :=
  match get_model_by_id db model_id with
  | none => Except.error "Model not found"
  | some model =>
    if model.is_deployed then Except.error "Cannot archive currently deployed model"
    else
      Except.ok (db.map (fun m =>
        if m.id == model_id then
          { m with status := ModelStatus.archived, is_active := false }
        else m))

/-- One step of keeping the best row so far for `order_by(... desc).first()`. -/
def bestStep {α : Type} (beats : α → α → Bool) (best : Option α) (x : α) : Option α :=
  match best with
  | none => some x
  | some b => if beats x b then some x else best

/-- `order_by(... desc).first()`: the fold keeps the first row of the descending
order, ties resolved in favour of earlier table order. -/
def firstByDesc {α : Type} (beats : α → α → Bool) (l : List α) : Option α :=
  l.foldl (bestStep beats) none

/-- Descending order on the nullable `deployed_at` column (SQL null sorts first
in a descending order). -/
def deployedAtBeats (a b : Option Int) : Bool :=
  match a, b with
  | none, none => false
  | none, some _ => true
  | some _, none => false
  | some x, some y => decide (y < x)

/-- `ModelService.get_deployed_model`: deployed rows ordered by deployed_at descending,
first row. -/
def get_deployed_model (db : List ModelVersion) : Option ModelVersion :=
  firstByDesc (fun a b => deployedAtBeats a.deployed_at b.deployed_at)
    (db.filter (fun m => m.is_deployed))

/-- The fallback query of `get_latest_model`: active rows ordered by created_at
descending, first row. -/
def latestActiveModel (db : List ModelVersion) : Option ModelVersion :=
  firstByDesc (fun a b => decide (b.created_at < a.created_at))
    (db.filter (fun m => m.is_active))

/-- `ModelService.get_latest_model`: the deployed model when one exists, else the
most recently created active model. -/
def get_latest_model (db : List ModelVersion) : Option ModelVersion :=
  match get_deployed_model db with
  | some m => some m
  | none => latestActiveModel db

/-- Python's string `<`: code-point lexicographic comparison of the character
sequences. -/
def charListLt : List Char → List Char → Bool
  | [], [] => false
  | [], _ :: _ => true
  | _ :: _, [] => false
  | a :: as, b :: bs => if a < b then true else if b < a then false else charListLt as bs

/-- Python's string `>=` as used by `app_version >= model.min_app_version`. -/
def strGe (a b : String) : Bool := !charListLt a.data b.data

/-- `ModelService.is_version_compatible`: true when either version string is
null or empty (Python falsiness), else the plain string comparison
`app_version >= model.min_app_version`. -/
def is_version_compatible (model : ModelVersion) (app_version : Option String) : Bool :=
  if !strTruthy model.min_app_version || !strTruthy app_version then true
  else
    match model.min_app_version, app_version with
    | some minv, some appv => strGe appv minv
    | _, _ => true

/-- Number of rows currently flagged as deployed. -/
def countDeployed (db : List ModelVersion) : Nat :=
  db.countP (fun m => m.is_deployed)

/-- Registry consistency: a deployed row carries the DEPLOYED status (established
by `deploy_model`, preserved by every registry operation). -/
def deployedConsistent (db : List ModelVersion) : Prop :=
  ∀ m ∈ db, m.is_deployed = true → m.status = ModelStatus.deployed

instance (db : List ModelVersion) : Decidable (deployedConsistent db) := by
  unfold deployedConsistent; infer_instance

/-- Registry states reachable from an empty registry through the write paths of the
source: inserting a freshly trained or bootstrap model (always is_deployed=false, with a
fresh primary key), and the deploy/undeploy/archive operations. -/
inductive ReachableRegistry : List ModelVersion → Prop where
  | init : ReachableRegistry []
  | register (db : List ModelVersion) (m : ModelVersion) :
      ReachableRegistry db → m.is_deployed = false → m.id ∉ db.map ModelVersion.id →
      ReachableRegistry (db ++ [m])
  | deploy (db : List ModelVersion) (model_id : Nat) (notes : Option String) (now : Int)
      (db' : List ModelVersion) : ReachableRegistry db →
      deploy_model db model_id notes now = Except.ok db' → ReachableRegistry db'
  | undeploy (db : List ModelVersion) (model_id : Nat) (db' : List ModelVersion) :
      ReachableRegistry db → undeploy_model db model_id = Except.ok db' →
      ReachableRegistry db'
  | archive (db : List ModelVersion) (model_id : Nat) (db' : List ModelVersion) :
      ReachableRegistry db → archive_model db model_id = Except.ok db' →
      ReachableRegistry db'

/-- The event bus state (`TrainingEventBus` in `app/core/events.py`): the shared
asyncio.Event flag and the set of active task ids. -/
structure TrainingEventBus where
  event : Bool
  active_tasks : Finset Nat
  deriving DecidableEq

/-- Result of one notify call: the new bus state and whether `self._event.set()` ran. -/
structure NotifyResult where
  bus : TrainingEventBus
  signalled : Bool
  deriving DecidableEq

/-- `notify_training_started`: adds the task to the active set and sets the event. -/
def notify_training_started (b : TrainingEventBus) (t : Nat) : NotifyResult :=
  { bus := { event := true, active_tasks := insert t b.active_tasks }, signalled := true }

/-- `notify_training_updated`: sets the event only when the task is currently active. -/
def notify_training_updated (b : TrainingEventBus) (t : Nat) : NotifyResult :=
  if t ∈ b.active_tasks then { bus := { b with event := true }, signalled := true }
  else { bus := b, signalled := false }

/-- `notify_training_completed`: discards the task from the active set and sets the
event unconditionally. -/
def notify_training_completed (b : TrainingEventBus) (t : Nat) : NotifyResult :=
  { bus := { event := true, active_tasks := b.active_tasks.erase t }, signalled := true }

/-- One notify call on the bus, as trace steps. -/
inductive BusOp where
  | started (t : Nat)
  | updated (t : Nat)
  | completed (t : Nat)
  deriving DecidableEq

/-- State effect of one notify call. -/
def applyBusOp (b : TrainingEventBus) : BusOp → TrainingEventBus
  | BusOp.started t => (notify_training_started b t).bus
  | BusOp.updated t => (notify_training_updated b t).bus
  | BusOp.completed t => (notify_training_completed b t).bus

/-- Run a sequence of notify calls. -/
def runBusOps (b : TrainingEventBus) (ops : List BusOp) : TrainingEventBus :=
  ops.foldl applyBusOp b

/-- Whether an op is `started t` for the given task id. -/
def opStarts (t : Nat) : BusOp → Bool
  | BusOp.started t' => t' == t
  | _ => false

/-- Stand-in for Python float arithmetic with exact rational semantics: an
unnormalized numerator/denominator pair whose operations are plain integer
formulas, so that concrete pipeline runs evaluate inside the kernel. No verified
property depends on the numeric values these operations produce. -/
structure Flt where
  num : Int
  den : Int
  deriving DecidableEq

instance (n : Nat) : OfNat Flt n := ⟨⟨(n : Int), 1⟩⟩

instance : Add Flt := ⟨fun a b => ⟨a.num * b.den + b.num * a.den, a.den * b.den⟩⟩

instance : Sub Flt := ⟨fun a b => ⟨a.num * b.den - b.num * a.den, a.den * b.den⟩⟩

instance : Mul Flt := ⟨fun a b => ⟨a.num * b.num, a.den * b.den⟩⟩

instance : Div Flt := ⟨fun a b => ⟨a.num * b.den, a.den * b.num⟩⟩

/-- Absolute value of the represented rational. -/
def Flt.abs (a : Flt) : Flt := ⟨(a.num.natAbs : Int), (a.den.natAbs : Int)⟩

/-- The represented value is zero (Python float falsiness). -/
def Flt.isZero (a : Flt) : Bool := a.num == 0

/-- Sum of a list of values. -/
def Flt.sum (l : List Flt) : Flt := l.foldl (fun a b => a + b) 0

/-- A row of the `farm_data` table (`app/models/farm_data.py`), water-quality
numerics as exact rationals, nullable fish measurements, the verification flag, and
the cycle start date / recording timestamp as integer times. -/
structure FarmData where
  id : Nat
  user_id : Nat
  temperature : Flt
  ph : Flt
  dissolved_oxygen : Flt
  ammonia : Flt
  nitrate : Flt
  turbidity : Flt
  fish_weight : Option Flt
  fish_length : Option Flt
  verified : Bool
  start_date : Option Int
  recorded_at : Int
  deriving DecidableEq

/-- The eligibility filter of `get_unused_farm_data` (`model_training_service.py`
lines 86-90): weight present, length present, verified. -/
def eligibleSample (r : FarmData) : Bool :=
  r.fish_weight.isSome && r.fish_length.isSome && r.verified

/-- A row of the `training_sessions` table, restricted to the columns the verified
properties touch. -/
structure TrainingSessionRow where
  model_version_id : Nat
  farm_data_ids : Finset Nat
  training_samples : Nat
  validation_samples : Nat
  test_samples : Nat
  epochs : Nat
  batch_size : Nat
  learning_rate : Flt
  started_at : Int
  completed_at : Option Int
  deriving DecidableEq

/-- Status enum of the task ledger (`TrainingTaskStatus` in
`app/models/training_task.py`). -/
inductive TrainingTaskStatus where
  | pending
  | running
  | completed
  | failed
  deriving DecidableEq

/-- A row of the `training_tasks` ledger. -/
structure TrainingTask where
  id : Nat
  base_model_id : Option Nat
  new_version : String
  initiated_by : Nat
  status : TrainingTaskStatus
  progress_percentage : Flt
  current_epoch : Option Nat
  total_epochs : Option Nat
  current_stage : Option String
  error_message : Option String
  result_model_id : Option Nat
  created_at : Int
  started_at : Option Int
  completed_at : Option Int
  deriving DecidableEq

/-- The relational state: the four tables the training subsystem reads and writes. -/
structure DB where
  farm_data : List FarmData
  models : List ModelVersion
  sessions : List TrainingSessionRow
  tasks : List TrainingTask
  deriving DecidableEq

/-- Id set of eligible samples (the first query of `get_unused_farm_data`). -/
def eligibleIds (db : DB) : Finset Nat :=
  ((db.farm_data.filter eligibleSample).map FarmData.id).toFinset

/-- Union of `farm_data_ids` over all `TrainingSession` rows (the second query of
`get_unused_farm_data`). -/
def usedIds (db : DB) : Finset Nat :=
  db.sessions.foldl (fun acc s => acc ∪ s.farm_data_ids) ∅

/-- `ModelTrainingService.get_unused_farm_data`: eligible ids minus used ids. -/
def get_unused_farm_data (db : DB) : Finset Nat :=
  eligibleIds db \ usedIds db

/-- The dict built per record in `fetch_training_data` (lines 126-140), before the
DataFrame conversion. -/
structure RawEntry where
  temperature : Flt
  ph : Flt
  dissolved_oxygen : Flt
  ammonia : Flt
  nitrate : Flt
  turbidity : Flt
  fish_weight : Option Flt
  fish_length : Option Flt
  recorded_at : Int
  start_date : Option Int
  user_id : Nat
  deriving DecidableEq

/-- Python truthiness of a nullable Numeric column: present and non-zero. -/
def decTruthy : Option Flt → Bool
  | none => false
  | some q => !q.isZero

/-- Per-record dict construction of `fetch_training_data`: the kg-to-gram conversion
guarded by truthiness of the stored weight (`float(record.fish_weight) * 1000.0 if
record.fish_weight else None`), and the same truthiness guard on the length. -/
def rawEntryOfRecord (r : FarmData) : RawEntry :=
  { temperature := r.temperature, ph := r.ph, dissolved_oxygen := r.dissolved_oxygen,
    ammonia := r.ammonia, nitrate := r.nitrate, turbidity := r.turbidity,
    fish_weight := if decTruthy r.fish_weight then r.fish_weight.map (fun w => w * 1000) else none,
    fish_length := if decTruthy r.fish_length then r.fish_length else none,
    recorded_at := r.recorded_at, start_date := r.start_date, user_id := r.user_id }

/-- The `dropna(subset=[fish_weight, fish_length])` predicate. -/
def keptEntry (e : RawEntry) : Bool :=
  e.fish_weight.isSome && e.fish_length.isSome

/-- Library numeric helpers used by the feature engineering of
`fetch_training_data`: pandas datetime accessors (`dt.dayofyear`, `dt.hour`) and numpy
trigonometry on the hour, taken as parameters (floating point library calls whose
values the verified properties do not depend on). -/
structure TrainEnv where
  dayOfYear : Int → Flt
  hourOfDay : Int → Flt
  sinHour : Flt → Flt
  cosHour : Flt → Flt

/-- `DEFAULT_CONFIG['preprocessing']['optimal_do']`. -/
def OPTIMAL_DO : Flt := 6

/-- `DEFAULT_CONFIG['preprocessing']['rolling_window']`. -/
def ROLLING_WINDOW : Nat := 7

/-- Seconds per day, to turn the timestamp difference into the pandas Timedelta
`days` attribute (floor division). -/
def SECONDS_PER_DAY : Int := 86400

/-- `days_in_farm` feature: elapsed days since the cycle start, zero when the
start date is missing (`fetch_training_data` lines 160-163). -/
def daysInFarm (e : RawEntry) : Int :=
  match e.start_date with
  | none => 0
  | some sd => (e.recorded_at - sd).fdiv SECONDS_PER_DAY

/-- Mean of a list of rationals. -/
def meanQ (l : List Flt) : Flt := Flt.sum l / ⟨(l.length : Int), 1⟩

/-- Last `n` elements of a list. -/
def takeLastN {α : Type} (n : Nat) (l : List α) : List α := l.drop (l.length - n)

/-- `rolling(window=7, min_periods=1).mean()` of dissolved oxygen grouped by user:
mean of the trailing window of same-user rows up to and including the current row. -/
def rollingUserDO (window : Nat) (pre : List RawEntry) (e : RawEntry) : Flt :=
  meanQ (takeLastN window
    (((pre.filter (fun x => x.user_id == e.user_id)).map RawEntry.dissolved_oxygen)
      ++ [e.dissolved_oxygen]))

/-- A row of the engineered training DataFrame, after the temporary columns are
dropped: the 6 base water-quality features, the two targets, and the 8 engineered
features of `fetch_training_data`. -/
structure DataRow where
  temperature : Flt
  ph : Flt
  dissolved_oxygen : Flt
  ammonia : Flt
  nitrate : Flt
  turbidity : Flt
  fish_weight : Flt
  fish_length : Flt
  days_in_farm : Int
  day_of_year : Flt
  hour : Flt
  sin_hour : Flt
  cos_hour : Flt
  temp_do_interaction : Flt
  avg_do_7d : Flt
  avg_wqi_7d : Flt
  deriving DecidableEq

/-- Engineered row built from one kept entry, given the entries preceding it in
recorded-at order (for the rolling window). -/
def featureRow (env : TrainEnv) (pre : List RawEntry) (e : RawEntry) : DataRow :=
  let hour := env.hourOfDay e.recorded_at
  let avg_do := rollingUserDO ROLLING_WINDOW pre e
  { temperature := e.temperature, ph := e.ph, dissolved_oxygen := e.dissolved_oxygen,
    ammonia := e.ammonia, nitrate := e.nitrate, turbidity := e.turbidity,
    fish_weight := e.fish_weight.getD 0, fish_length := e.fish_length.getD 0,
    days_in_farm := daysInFarm e,
    day_of_year := env.dayOfYear e.recorded_at,
    hour := hour,
    sin_hour := env.sinHour hour,
    cos_hour := env.cosHour hour,
    temp_do_interaction := e.temperature * e.dissolved_oxygen,
    avg_do_7d := avg_do,
    avg_wqi_7d := (avg_do - OPTIMAL_DO).abs / OPTIMAL_DO }

/-- Map over a list handing each element the elements before it. -/
def mapWithPrefixGo {α β : Type} (f : List α → α → β) (pre : List α) :
    List α → List β
  | [] => []
  | x :: xs => f pre x :: mapWithPrefixGo f (pre ++ [x]) xs

/-- Map over a list handing each element the elements before it. -/
def mapWithPrefix {α β : Type} (f : List α → α → β) (l : List α) : List β :=
  mapWithPrefixGo f [] l

/-- Typed errors of the training pipeline (each a `ValueError` in the source;
`external` stands for an exception escaping a library call). -/
inductive TrainError where
  | baseModelNotFound
  | baseModelNotCompleted
  | versionExists
  | insufficientPool
  | noFarmData
  | noValidData
  | insufficientRows
  | libraryFailure (msg : String)
  deriving DecidableEq

/-- The stringified cause recorded into the ledger on failure (the numeric counts
interpolated by the source messages are elided). -/
def trainErrorMessage : TrainError → String
  | TrainError.baseModelNotFound => "Base model not found"
  | TrainError.baseModelNotCompleted => "Base model must be in COMPLETED status"
  | TrainError.versionExists => "Model version already exists"
  | TrainError.insufficientPool =>
      "Insufficient unused farm data (minimum 100 required)"
  | TrainError.noFarmData => "No farm data found for training"
  | TrainError.noValidData => "No valid training data after filtering"
  | TrainError.insufficientRows =>
      "Insufficient data for training (minimum 100 required before preprocessing)"
  | TrainError.libraryFailure msg => msg

/-- Insertion into a sorted list, for the `order_by` / `sort_values` embedding. -/
def insertByLe {α : Type} (le : α → α → Bool) (x : α) : List α → List α
  | [] => [x]
  | y :: ys => if le x y then x :: y :: ys else y :: insertByLe le x ys

/-- Sort by a boolean comparison (embeds the SQL `order_by` and pandas
`sort_values`; the verified properties use only that the result is a permutation). -/
def sortByLe {α : Type} (le : α → α → Bool) : List α → List α
  | [] => []
  | x :: xs => insertByLe le x (sortByLe le xs)

/-- The `filter(FarmData.id.in_(farm_data_ids))` query of `fetch_training_data`. -/
def selectedRecords (db : DB) (ids : Finset Nat) : List FarmData :=
  db.farm_data.filter (fun r => decide (r.id ∈ ids))

/-- The selected records in recorded-at order (the initial ordered query of
`fetch_training_data`). -/
def fetchFarmSorted (db : DB) (ids : Finset Nat) : List FarmData :=
  sortByLe (fun a b => decide (a.recorded_at ≤ b.recorded_at)) (selectedRecords db ids)

/-- The per-record dicts with rows missing either target dropped
(`dropna(subset=['fish_weight', 'fish_length'])`). -/
def fetchDf (db : DB) (ids : Finset Nat) : List RawEntry :=
  ((fetchFarmSorted db ids).map rawEntryOfRecord).filter keptEntry

/-- `ModelTrainingService.fetch_training_data`: select the requested records ordered
by recorded_at, build the per-record dicts (with the guarded kg-to-gram conversion),
drop rows with missing targets, re-sort, then engineer the features row by row. -/
def fetch_training_data (env : TrainEnv) (db : DB) (ids : Finset Nat) :
    Except TrainError (List DataRow) :=
  if (fetchFarmSorted db ids).isEmpty then Except.error TrainError.noFarmData
  else if (fetchDf db ids).isEmpty then Except.error TrainError.noValidData
  else
    Except.ok (mapWithPrefix (featureRow env)
      (sortByLe (fun a b => decide (a.recorded_at ≤ b.recorded_at)) (fetchDf db ids)))

/-- The five cleaning sub-steps of `preprocess_training_data`
(`_replace_infinite_values`, `_remove_multivariate_outliers`,
`_impute_missing_features`, `_remove_target_outliers`, `_remove_duplicates`).
They call into float and ML library numerics (np.inf replacement, IsolationForest,
pandas median and quantile interpolation) and are taken as parameters with the
source functions' shapes; the verified properties hold for every instantiation. -/
structure CleanOracle where
  replace_infinite_values : List DataRow → List DataRow
  remove_multivariate_outliers : List DataRow → List DataRow × Nat
  impute_missing_features : List DataRow → List DataRow
  remove_target_outliers : List DataRow → List DataRow × Nat
  remove_duplicates : List DataRow → List DataRow × Nat

/-- `ModelTrainingService.preprocess_training_data`: the five-step cleaning
composition. It returns the cleaned rows unconditionally — the source only logs a
warning when fewer than 50 rows remain and performs no failing minimum check. -/
def preprocess_training_data (clean : CleanOracle) (df : List DataRow) : List DataRow :=
  let df1 := clean.replace_infinite_values df
  let df2 := (clean.remove_multivariate_outliers df1).1
  let df3 := clean.impute_missing_features df2
  let df4 := (clean.remove_target_outliers df3).1
  (clean.remove_duplicates df4).1

/-- The train/validation/test partition produced by the two `train_test_split` calls. -/
structure SplitData where
  train_rows : List DataRow
  val_rows : List DataRow
  test_rows : List DataRow
  deriving DecidableEq

/-- Outcome of the keras fit: the number of epochs actually trained
(`len(history.history['loss'])`). -/
structure FitResult where
  actual_epochs : Nat
  deriving DecidableEq

/-- The sklearn / keras / storage stages of `train_model` (train_test_split,
RobustScaler + model preparation + fit + evaluation, TFLite conversion and cloud
upload): opaque library calls taken as parameters, each allowed to fail like the
library call it stands for. -/
structure MLOracle where
  train_test_split : List DataRow → Except String SplitData
  fit_model : Option ModelVersion → SplitData → Nat → Nat → Flt → Except String FitResult
  upload_artifacts : String → Except String Unit

/-- Arguments of `ModelTrainingService.train_model`. -/
structure TrainParams where
  base_model_id : Option Nat
  new_version : String
  user_id : Nat
  epochs : Nat
  batch_size : Nat
  learning_rate : Flt
  notes : Option String
  task_id : Option Nat
  deriving DecidableEq

/-- Ledger fields written by one `update_progress` call inside `train_model`:
stage and percentage, plus epoch counters when an epoch is reported. -/
def progressTaskUpdate (stage : String) (pct : Flt) (epoch : Option Nat) (total : Nat)
    (t : TrainingTask) : TrainingTask :=
  match epoch with
  | none => { t with current_stage := some stage, progress_percentage := pct }
  | some e => { t with current_stage := some stage, progress_percentage := pct,
                       current_epoch := some e, total_epochs := some total }

/-- The `update_progress` helper of `train_model`: when a task id was supplied,
writes the progress fields of that ledger row and commits. -/
def update_progress (db : DB) (task_id : Option Nat) (stage : String) (pct : Flt)
    (epoch : Option Nat) (total : Nat) : DB :=
  match task_id with
  | none => db
  | some tid =>
    { db with tasks := db.tasks.map (fun t =>
        if t.id == tid then progressTaskUpdate stage pct epoch total t else t) }

/-- Base model validation of `train_model` (lines 622-630): when a base id is given
the model must exist and be COMPLETED. -/
def validateBase (db : DB) (base_model_id : Option Nat) :
    Except TrainError (Option ModelVersion) :=
  match base_model_id with
  | none => Except.ok none
  | some bid =>
    match db.models.find? (fun m => m.id == bid) with
    | none => Except.error TrainError.baseModelNotFound
    | some b =>
      if b.status = ModelStatus.completed then Except.ok (some b)
      else Except.error TrainError.baseModelNotCompleted

/-- The duplicate-version check of `train_model` (lines 632-635). -/
def versionTaken (db : DB) (v : String) : Bool :=
  (db.models.find? (fun m => m.version == v)).isSome

/-- Primary key generated for the inserted `ModelVersion` row (stands for the uuid
default: some id not present in the table). -/
def freshModelId (db : DB) : Nat :=
  (db.models.map ModelVersion.id).foldr max 0 + 1

/-- The ModelVersion row inserted at the end of a successful run (lines 781-805). -/
def newModelRow (db : DB) (p : TrainParams) (unused : Finset Nat) (t_end : Int) :
    ModelVersion :=
  { id := freshModelId db, version := p.new_version,
    base_model_id := p.base_model_id,
    training_data_count := some unused.card,
    status := ModelStatus.completed, is_deployed := false, is_active := true,
    min_app_version := none, created_at := t_end, deployed_at := none,
    notes := p.notes }

/-- The TrainingSession row inserted together with the ModelVersion (lines 807-832):
`farm_data_ids` records the id set fetched at the start of the run. -/
def newSessionRow (mv : ModelVersion) (p : TrainParams) (unused : Finset Nat)
    (parts : SplitData) (fit : FitResult) (t_start t_end : Int) : TrainingSessionRow :=
  { model_version_id := mv.id, farm_data_ids := unused,
    training_samples := parts.train_rows.length,
    validation_samples := parts.val_rows.length,
    test_samples := parts.test_rows.length,
    epochs := fit.actual_epochs, batch_size := p.batch_size,
    learning_rate := p.learning_rate,
    started_at := t_start, completed_at := some t_end }

/-- Final stage of `train_model`: one transactional commit of the
ModelVersion + TrainingSession pair (db.add, db.add, db.commit at lines 804-832). -/
def trainStageCommit (db : DB) (p : TrainParams) (unused : Finset Nat)
    (parts : SplitData) (fit : FitResult) (t_start t_end : Int) :
    DB × Except TrainError ModelVersion :=
  ({ db with models := db.models ++ [newModelRow db p unused t_end],
             sessions := db.sessions ++
               [newSessionRow (newModelRow db p unused t_end) p unused parts fit
                 t_start t_end] },
   Except.ok (newModelRow db p unused t_end))

/-- Upload stage (TFLite conversion and the three cloud uploads). -/
def trainStageUpload (ml : MLOracle) (db : DB) (p : TrainParams) (unused : Finset Nat)
    (parts : SplitData) (fit : FitResult) (t_start t_end : Int) :
    DB × Except TrainError ModelVersion :=
  match ml.upload_artifacts p.new_version with
  | Except.error msg => (db, Except.error (TrainError.libraryFailure msg))
  | Except.ok _ =>
      trainStageCommit
        (update_progress db p.task_id "Saving model metadata" 95 none p.epochs)
        p unused parts fit t_start t_end

/-- Model preparation / fit / evaluation stage (keras, through the oracle). -/
def trainStageFit (ml : MLOracle) (db : DB) (p : TrainParams)
    (base : Option ModelVersion) (unused : Finset Nat) (parts : SplitData)
    (t_start t_end : Int) : DB × Except TrainError ModelVersion :=
  match ml.fit_model base parts p.epochs p.batch_size p.learning_rate with
  | Except.error msg => (db, Except.error (TrainError.libraryFailure msg))
  | Except.ok fit =>
      trainStageUpload ml
        (update_progress
          (update_progress db p.task_id "Evaluating model" 82 none p.epochs)
          p.task_id "Converting and saving models" 85 none p.epochs)
        p unused parts fit t_start t_end

/-- Split / scale stage (sklearn `train_test_split` and `RobustScaler`, through the
oracle). -/
def trainStageSplit (ml : MLOracle) (db : DB) (p : TrainParams)
    (base : Option ModelVersion) (unused : Finset Nat) (df2 : List DataRow)
    (t_start t_end : Int) : DB × Except TrainError ModelVersion :=
  match ml.train_test_split df2 with
  | Except.error msg => (db, Except.error (TrainError.libraryFailure msg))
  | Except.ok parts =>
      trainStageFit ml
        (update_progress
          (update_progress
            (update_progress db p.task_id "Scaling features" 22 none p.epochs)
            p.task_id "Preparing model" 25 none p.epochs)
          p.task_id "Training model" 30 none p.epochs)
        p base unused parts t_start t_end

/-- Cleaning stage: `preprocess_training_data` is applied and the run continues with
whatever row count cleaning leaves — the source performs no failing row-count check
after cleaning. -/
def trainStageClean (clean : CleanOracle) (ml : MLOracle) (db : DB) (p : TrainParams)
    (base : Option ModelVersion) (unused : Finset Nat) (df : List DataRow)
    (t_start t_end : Int) : DB × Except TrainError ModelVersion :=
  trainStageSplit ml
    (update_progress db p.task_id "Splitting and scaling data" 20 none p.epochs)
    p base unused (preprocess_training_data clean df) t_start t_end

/-- Fetch stage: fetch the engineered rows, then the pre-preprocessing 100-row check
(lines 643-655) before handing over to cleaning. -/
def trainStageFetch (env : TrainEnv) (clean : CleanOracle) (ml : MLOracle) (db : DB)
    (p : TrainParams) (base : Option ModelVersion) (unused : Finset Nat)
    (t_start t_end : Int) : DB × Except TrainError ModelVersion :=
  match fetch_training_data env db unused with
  | Except.error e => (db, Except.error e)
  | Except.ok df =>
    if df.length < 100 then (db, Except.error TrainError.insufficientRows)
    else
      trainStageClean clean ml
        (update_progress db p.task_id "Cleaning and preprocessing data" 17 none p.epochs)
        p base unused df t_start t_end

/-- The stages of `train_model` from the data fetch on (lines 643-835). -/
def train_from_fetch (env : TrainEnv) (clean : CleanOracle) (ml : MLOracle) (db : DB)
    (p : TrainParams) (base : Option ModelVersion) (unused : Finset Nat)
    (t_start t_end : Int) : DB × Except TrainError ModelVersion :=
  trainStageFetch env clean ml
    (update_progress db p.task_id "Processing features" 15 none p.epochs)
    p base unused t_start t_end

/-- Pool stage of `train_model`: the pre-fetch unused-pool floor (lines 637-641) —
fewer than 100 unused samples fails before fetching. -/
def trainStagePool (env : TrainEnv) (clean : CleanOracle) (ml : MLOracle) (db : DB)
    (p : TrainParams) (base : Option ModelVersion) (t_start t_end : Int) :
    DB × Except TrainError ModelVersion :=
  if (get_unused_farm_data db).card < 100 then
    (db, Except.error TrainError.insufficientPool)
  else train_from_fetch env clean ml db p base (get_unused_farm_data db) t_start t_end

/-- Validation stage of `train_model`: base-model validation (lines 622-630) and the
duplicate-version check (lines 632-635). -/
def trainStageValidated (env : TrainEnv) (clean : CleanOracle) (ml : MLOracle)
    (db : DB) (p : TrainParams) (t_start t_end : Int) :
    DB × Except TrainError ModelVersion :=
  match validateBase db p.base_model_id with
  | Except.error e => (db, Except.error e)
  | Except.ok base =>
    if versionTaken db p.new_version then (db, Except.error TrainError.versionExists)
    else
      trainStagePool env clean ml
        (update_progress db p.task_id "Fetching training data" 10 none p.epochs)
        p base t_start t_end

/-- `ModelTrainingService.train_model`: base-model validation, duplicate-version
check, the pre-fetch unused-pool floor, then the fetch-onward stages. -/
def train_model (env : TrainEnv) (clean : CleanOracle) (ml : MLOracle) (db : DB)
    (p : TrainParams) (t_start t_end : Int) : DB × Except TrainError ModelVersion :=
  trainStageValidated env clean ml
    (update_progress db p.task_id "Validating base model" 5 none p.epochs)
    p t_start t_end

/-- `query(TrainingTask).filter(id == tid).first()` followed by a field mutation and
commit, as a map over the ledger. -/
def updateTask (db : DB) (tid : Nat) (f : TrainingTask → TrainingTask) : DB :=
  { db with tasks := db.tasks.map (fun t => if t.id == tid then f t else t) }

/-- Ledger fields written when the background thread starts
(`_run_training_task_in_thread` lines 68-74). -/
def taskRunningUpdate (t0 : Int) (t : TrainingTask) : TrainingTask :=
  { t with status := TrainingTaskStatus.running, started_at := some t0,
           current_stage := some "Initializing training" }

/-- Ledger fields written on pipeline success (lines 102-110). -/
def taskCompletedUpdate (t1 : Int) (model_id : Nat) (t : TrainingTask) : TrainingTask :=
  { t with status := TrainingTaskStatus.completed, completed_at := some t1,
           result_model_id := some model_id, progress_percentage := 100,
           current_stage := some "Training completed" }

/-- Ledger fields written on pipeline failure (lines 124-131). -/
def taskFailedUpdate (t1 : Int) (msg : String) (t : TrainingTask) : TrainingTask :=
  { t with status := TrainingTaskStatus.failed, completed_at := some t1,
           error_message := some msg }

/-- `_run_training_task_in_thread`: mark the ledger row RUNNING, run the pipeline,
then mark the row COMPLETED with the result model id, or FAILED with the
stringified error. -/
def run_training_task (env : TrainEnv) (clean : CleanOracle) (ml : MLOracle) (db : DB)
    (p : TrainParams) (tid : Nat) (t0 t1 : Int) : DB :=
  match train_model env clean ml (updateTask db tid (taskRunningUpdate t0))
      { p with task_id := some tid } t0 t1 with
  | (db2, Except.ok mv) => updateTask db2 tid (taskCompletedUpdate t1 mv.id)
  | (db2, Except.error e) => updateTask db2 tid (taskFailedUpdate t1 (trainErrorMessage e))

/-- The retrain request body (`RetrainRequest` schema), the base model reference
already resolved to an optional id (missing or empty string becomes none). -/
structure RetrainRequest where
  base_model_id : Option Nat
  new_version : String
  epochs : Nat
  batch_size : Nat
  learning_rate : Flt
  notes : Option String
  deriving DecidableEq

/-- The PENDING ledger row inserted synchronously by the retrain endpoint
(`models.py` lines 411-428). -/
def mkPendingTask (req : RetrainRequest) (user_id task_id : Nat) (now : Int) :
    TrainingTask :=
  { id := task_id, base_model_id := req.base_model_id, new_version := req.new_version,
    initiated_by := user_id, status := TrainingTaskStatus.pending,
    progress_percentage := 0, current_epoch := none, total_epochs := none,
    current_stage := none, error_message := none, result_model_id := none,
    created_at := now, started_at := none, completed_at := none }

/-- The synchronous part of the `POST /models/retrain` endpoint (`retrain_model` in
`models.py` lines 377-471): the only validation before the ledger insert is that
`base_model_id` is supplied; the PENDING row is then created and committed and the
task id returned, the pipeline being launched on a separate thread. -/
def retrain_model (db : DB) (req : RetrainRequest) (user_id task_id : Nat)
    (now : Int) : Except String (DB × Nat) :=
  match req.base_model_id with
  | none => Except.error "base_model_id is required"
  | some _ =>
    Except.ok ({ db with tasks := db.tasks ++ [mkPendingTask req user_id task_id now] },
               task_id)

/-- Train params captured by the retrain endpoint for the background thread. -/
def trainParamsOfRequest (req : RetrainRequest) (user_id : Nat) : TrainParams :=
  { base_model_id := req.base_model_id, new_version := req.new_version,
    user_id := user_id, epochs := req.epochs, batch_size := req.batch_size,
    learning_rate := req.learning_rate, notes := req.notes, task_id := none }

/-- A ledger write that touches only the progress fields (stage, percentage, epoch
counters), leaving identity, status, outcome and audit fields unchanged. -/
def progressOnly (F : TrainingTask → TrainingTask) : Prop :=
  ∀ t, (F t).id = t.id ∧ (F t).status = t.status ∧
       (F t).result_model_id = t.result_model_id ∧
       (F t).error_message = t.error_message ∧
       (F t).completed_at = t.completed_at ∧ (F t).started_at = t.started_at

/-- The ledger evolved only through progress writes. -/
def tasksProgressOnly (l l' : List TrainingTask) : Prop :=
  ∃ F, l' = l.map F ∧ progressOnly F

/-- All library stages succeed on every input (the run hits no library failure). -/
def mlTotal (ml : MLOracle) : Prop :=
  (∀ l, (ml.train_test_split l).isOk = true) ∧
  (∀ b s e bs lr, (ml.fit_model b s e bs lr).isOk = true) ∧
  (∀ v, (ml.upload_artifacts v).isOk = true)

/-- The registry invariant maintained by every write path: at most one deployed row,
deployed rows carry the DEPLOYED status, and primary keys are unique. -/
def RegInv (db : List ModelVersion) : Prop :=
  countDeployed db ≤ 1 ∧ deployedConsistent db ∧ (db.map ModelVersion.id).Nodup

/-- Trivial instantiation of the library numeric helpers, for concrete runs. -/
def envZero : TrainEnv :=
  { dayOfYear := fun _ => 0, hourOfDay := fun _ => 0,
    sinHour := fun _ => 0, cosHour := fun _ => 0 }

/-- Cleaning instantiation that removes nothing. -/
def cleanId : CleanOracle :=
  { replace_infinite_values := fun l => l,
    remove_multivariate_outliers := fun l => (l, 0),
    impute_missing_features := fun l => l,
    remove_target_outliers := fun l => (l, 0),
    remove_duplicates := fun l => (l.drop 0, 0) }

/-- Cleaning instantiation whose deduplication step drops one row. -/
def cleanDropOne : CleanOracle :=
  { cleanId with remove_duplicates := fun l => (l.drop 1, 1) }

/-- Library-stage instantiation where every stage succeeds. -/
def mlOk : MLOracle :=
  { train_test_split := fun l => Except.ok { train_rows := l, val_rows := [], test_rows := [] },
    fit_model := fun _ _ _ _ _ => Except.ok { actual_epochs := 1 },
    upload_artifacts := fun _ => Except.ok () }

/-- An eligible verified sample with id and timestamp `i`. -/
def mkSample (i : Nat) : FarmData :=
  { id := i, user_id := 0, temperature := 25, ph := 7, dissolved_oxygen := 6,
    ammonia := 0, nitrate := 0, turbidity := 0,
    fish_weight := some 1, fish_length := some 10, verified := true,
    start_date := none, recorded_at := (i : Int) }

/-- A fresh database holding `n` eligible verified samples. -/
def mkTrainDb (n : Nat) : DB :=
  { farm_data := (List.range n).map mkSample, models := [], sessions := [], tasks := [] }

/-- Default pipeline arguments for concrete runs (initial training, no ledger row). -/
def defaultTrainParams : TrainParams :=
  { base_model_id := none, new_version := "1.0.0", user_id := 1, epochs := 10,
    batch_size := 32, learning_rate := 1 / 1000, notes := none, task_id := none }

/-- Post-cleaning row count of the concrete 100-sample run whose deduplication step
drops one row. -/
def c6postCleanLen : Except TrainError Nat :=
  (fetch_training_data envZero (mkTrainDb 100) (get_unused_farm_data (mkTrainDb 100))).map
    (fun rows => (preprocess_training_data cleanDropOne rows).length)

/-- A deployed registry row. -/
def regModelA : ModelVersion :=
  { id := 1, version := "1.0.0", base_model_id := none, training_data_count := none,
    status := ModelStatus.deployed, is_deployed := true, is_active := true,
    min_app_version := none, created_at := 0, deployed_at := some 1, notes := none }

/-- A completed, active, undeployed registry row created later than `regModelA`. -/
def regModelB : ModelVersion :=
  { id := 2, version := "2.0.0", base_model_id := none, training_data_count := none,
    status := ModelStatus.completed, is_deployed := false, is_active := true,
    min_app_version := none, created_at := 2, deployed_at := none, notes := none }

/-- A registry row in TRAINING status, referenced as a retrain base. -/
def c4BaseModel : ModelVersion :=
  { id := 1, version := "1.0.0", base_model_id := none, training_data_count := none,
    status := ModelStatus.training, is_deployed := false, is_active := true,
    min_app_version := none, created_at := 0, deployed_at := none, notes := none }

/-- A database whose only model is the TRAINING-status base model. -/
def c4db : DB :=
  { farm_data := [], models := [c4BaseModel], sessions := [], tasks := [] }

/-- A retrain request pointing at the TRAINING-status base model. -/
def c4req : RetrainRequest :=
  { base_model_id := some 1, new_version := "1.0.1", epochs := 10, batch_size := 32,
    learning_rate := 1 / 1000, notes := none }

/-- A registry row carrying a minimum app version. -/
def c9Model : ModelVersion :=
  { regModelB with min_app_version := some "9.0.0" }

/-- An eligible sample whose stored weight is exactly zero. -/
def zeroWeightSample : FarmData :=
  { mkSample 5 with fish_weight := some 0 }

/-- A database holding one zero-weight sample and one ordinary sample. -/
def c10db : DB :=
  { farm_data := [zeroWeightSample, mkSample 3], models := [], sessions := [],
    tasks := [] }

/-- The database evolved only through ledger progress writes: the data tables are
unchanged and the ledger saw only progress-field updates. -/
def dbProgressOnly (db db' : DB) : Prop :=
  db'.farm_data = db.farm_data ∧ db'.models = db.models ∧ db'.sessions = db.sessions ∧
  tasksProgressOnly db.tasks db'.tasks

/-- Outcome shape of the pipeline from a given state on: on failure nothing but
ledger progress fields changed; on success exactly one ModelVersion and one
TrainingSession row were appended, the session recording `unused` as its consumed
id set. -/
def trainOutcomeShape (db : DB) (p : TrainParams) (unused : Finset Nat)
    (out : DB × Except TrainError ModelVersion) : Prop :=
  (∃ e, out.2 = Except.error e ∧ out.1.models = db.models ∧
     out.1.sessions = db.sessions ∧ out.1.farm_data = db.farm_data ∧
     tasksProgressOnly db.tasks out.1.tasks) ∨
  (∃ mv s, out.2 = Except.ok mv ∧ out.1.models = db.models ++ [mv] ∧
     out.1.sessions = db.sessions ++ [s] ∧ out.1.farm_data = db.farm_data ∧
     tasksProgressOnly db.tasks out.1.tasks ∧
     s.model_version_id = mv.id ∧ s.farm_data_ids = unused ∧
     mv.is_deployed = false ∧ mv.status = ModelStatus.completed ∧
     mv.is_active = true ∧ mv.version = p.new_version)

/-- The database state right after the retrain endpoint accepted a request. -/
def retrainAccepted (db : DB) (req : RetrainRequest) (user_id task_id : Nat)
    (now : Int) : DB :=
  { db with tasks := db.tasks ++ [mkPendingTask req user_id task_id now] }

/-- The model row produced by the concrete successful 100-sample run. -/
def c2mv : ModelVersion :=
  newModelRow (mkTrainDb 100) defaultTrainParams
    (get_unused_farm_data (mkTrainDb 100)) 1

/-- A pending ledger row with task id 9. -/
def c3task : TrainingTask := mkPendingTask c4req 7 9 0

/-- A database where the pipeline fails (no farm data at all) with task 9 pending. -/
def c3errdb : DB :=
  { farm_data := [], models := [], sessions := [], tasks := [c3task] }

/-- A database where the pipeline succeeds, with task 9 pending. -/
def c3okdb : DB := { mkTrainDb 100 with tasks := [c3task] }

/-- The model row produced by the successful run on `c3okdb`. -/
def c3mv : ModelVersion :=
  { id := 1, version := "1.0.0", base_model_id := none,
    training_data_count := some 100, status := ModelStatus.completed,
    is_deployed := false, is_active := true, min_app_version := none,
    created_at := 1, deployed_at := none, notes := none }

/-- The engineered rows fetched by the concrete 100-sample run. -/
def c6rows : List DataRow :=
  mapWithPrefix (featureRow envZero)
    (sortByLe (fun a b => decide (a.recorded_at ≤ b.recorded_at))
      (fetchDf (mkTrainDb 100) (get_unused_farm_data (mkTrainDb 100))))

theorem not_mem_active_runBusOps (t : Nat) (ops : List BusOp) (b : TrainingEventBus)
    (hops : ops.all (fun op => !opStarts t op) = true)
    (hb : t ∉ b.active_tasks) : t ∉ (runBusOps b ops).active_tasks := by
  induction ops generalizing b with
  | nil => exact hb
  | cons op rest ih =>
    simp only [List.all_cons, Bool.and_eq_true] at hops
    refine ih _ hops.2 ?_
    have h1 := hops.1
    cases op with
    | started u =>
      simp only [opStarts, Bool.not_eq_true', beq_eq_false_iff_ne, ne_eq] at h1
      simp only [applyBusOp, notify_training_started, Finset.mem_insert]
      rintro (rfl | hmem)
      · exact h1 rfl
      · exact hb hmem
    | updated u =>
      simp only [applyBusOp, notify_training_updated]
      split <;> exact hb
    | completed u =>
      simp only [applyBusOp, notify_training_completed]
      intro hmem
      exact hb (Finset.mem_of_mem_erase hmem)

/-- C8: `notify_training_updated(t)` sets the shared wake event iff `t` is in the
active set; `notify_training_started` adds to and `notify_training_completed` removes
from that set, the latter always setting the event; and once `notify_training_completed(t)`
has run, a later `notify_training_updated(t)` never sets the event as long as no new
`notify_training_started(t)` intervenes. -/
theorem C8_event_bus_notify_semantics :
    (∀ b t, (notify_training_updated b t).signalled = true ↔ t ∈ b.active_tasks) ∧
    (∀ b t, (notify_training_completed b t).signalled = true ∧
            (notify_training_completed b t).bus.event = true) ∧
    (∀ b t, (notify_training_started b t).bus.active_tasks = insert t b.active_tasks ∧
            (notify_training_completed b t).bus.active_tasks = b.active_tasks.erase t ∧
            t ∉ (notify_training_completed b t).bus.active_tasks) ∧
    (∀ b t ops, ops.all (fun op => !opStarts t op) = true →
       (notify_training_updated
          (runBusOps (notify_training_completed b t).bus ops) t).signalled = false) := by
  refine ⟨?_, ?_, ?_, ?_⟩
  · intro b t
    simp only [notify_training_updated]
    split
    · simpa
    · simpa
  · intro b t
    exact ⟨rfl, rfl⟩
  · intro b t
    exact ⟨rfl, rfl, Finset.not_mem_erase t b.active_tasks⟩
  · intro b t ops hops
    have hnot : t ∉ (runBusOps (notify_training_completed b t).bus ops).active_tasks := by
      refine not_mem_active_runBusOps t ops _ hops ?_
      exact Finset.not_mem_erase t b.active_tasks
    simp only [notify_training_updated]
    split
    · exact absurd (by assumption) hnot
    · rfl

theorem C8_event_bus_notify_semantics_witness :
    ((notify_training_updated ⟨false, {3}⟩ 3).signalled = true ↔ 3 ∈ ({3} : Finset Nat)) ∧
    ((3 : Nat) ∈ ({3} : Finset Nat)) ∧
    (notify_training_updated
       (runBusOps (notify_training_completed ⟨false, {3}⟩ 3).bus
         [BusOp.updated 7, BusOp.completed 9]) 3).signalled = false :=
  ⟨C8_event_bus_notify_semantics.1 ⟨false, {3}⟩ 3, by decide,
   C8_event_bus_notify_semantics.2.2.2 ⟨false, {3}⟩ 3
     [BusOp.updated 7, BusOp.completed 9] (by decide)⟩

theorem foldl_bestStep_const {α : Type} (beats : α → α → Bool) (m : α) (l : List α)
    (h : ∀ x ∈ l, x = m) : l.foldl (bestStep beats) (some m) = some m := by
  induction l with
  | nil => rfl
  | cons x xs ih =>
    have hx : x = m := h x (List.mem_cons_self x xs)
    subst hx
    simp only [List.foldl_cons, bestStep, ite_self]
    exact ih (fun y hy => h y (List.mem_cons_of_mem x hy))

theorem firstByDesc_all_eq {α : Type} (beats : α → α → Bool) (m : α) (l : List α)
    (h : ∀ x ∈ l, x = m) (hne : l ≠ []) : firstByDesc beats l = some m := by
  cases l with
  | nil => exact absurd rfl hne
  | cons x xs =>
    have hx : x = m := h x (List.mem_cons_self x xs)
    subst hx
    simp only [firstByDesc, List.foldl_cons, bestStep]
    exact foldl_bestStep_const beats x xs (fun y hy => h y (List.mem_cons_of_mem x hy))

theorem foldl_latest_max (xs : List ModelVersion) (b : ModelVersion) :
    ∃ m, xs.foldl (bestStep (fun p q => decide (q.created_at < p.created_at))) (some b)
        = some m ∧
      (m = b ∨ m ∈ xs) ∧ b.created_at ≤ m.created_at ∧
      ∀ x ∈ xs, x.created_at ≤ m.created_at := by
  induction xs generalizing b with
  | nil => exact ⟨b, rfl, Or.inl rfl, le_refl _, by simp⟩
  | cons x xs ih =>
    simp only [List.foldl_cons, bestStep]
    split
    · rename_i hcond
      have hbx : b.created_at ≤ x.created_at := le_of_lt (of_decide_eq_true hcond)
      obtain ⟨m, hm, hmem, hxm, hall⟩ := ih x
      refine ⟨m, hm, ?_, le_trans hbx hxm, ?_⟩
      · rcases hmem with rfl | hmem
        · exact Or.inr (List.mem_cons_self m xs)
        · exact Or.inr (List.mem_cons_of_mem x hmem)
      · intro y hy
        rcases List.mem_cons.mp hy with rfl | hy
        · exact hxm
        · exact hall y hy
    · rename_i hcond
      have hxb : x.created_at ≤ b.created_at := by
        by_contra hlt
        exact hcond (decide_eq_true (lt_of_not_le hlt))
      obtain ⟨m, hm, hmem, hbm, hall⟩ := ih b
      refine ⟨m, hm, ?_, hbm, ?_⟩
      · rcases hmem with rfl | hmem
        · exact Or.inl rfl
        · exact Or.inr (List.mem_cons_of_mem x hmem)
      · intro y hy
        rcases List.mem_cons.mp hy with rfl | hy
        · exact le_trans hxb hbm
        · exact hall y hy

theorem firstByDesc_created_max (l : List ModelVersion) (a : ModelVersion) (ha : a ∈ l) :
    ∃ m, firstByDesc (fun p q => decide (q.created_at < p.created_at)) l = some m ∧
      m ∈ l ∧ ∀ x ∈ l, x.created_at ≤ m.created_at := by
  cases l with
  | nil => cases ha
  | cons x xs =>
    obtain ⟨m, hm, hmem, hxm, hall⟩ := foldl_latest_max xs x
    refine ⟨m, ?_, ?_, ?_⟩
    · simpa only [firstByDesc, List.foldl_cons, bestStep] using hm
    · rcases hmem with rfl | hmem
      · exact List.mem_cons_self m xs
      · exact List.mem_cons_of_mem x hmem
    · intro y hy
      rcases List.mem_cons.mp hy with rfl | hy
      · exact hxm
      · exact hall y hy

/-- C7: `get_latest_model` returns the deployed model whenever one exists (even when a
more recently created active model exists); when no model is deployed it returns an
active model of maximal creation time; and when neither exists it returns none. -/
theorem C7_get_latest_model_policy :
    (∀ db m, m ∈ db → m.is_deployed = true →
       (∀ x ∈ db, x.is_deployed = true → x = m) → get_latest_model db = some m) ∧
    (∀ db a, (∀ x ∈ db, x.is_deployed = false) → a ∈ db → a.is_active = true →
       ∃ m, get_latest_model db = some m ∧ m ∈ db ∧ m.is_active = true ∧
         ∀ x ∈ db, x.is_active = true → x.created_at ≤ m.created_at) ∧
    (∀ db, (∀ x ∈ db, x.is_deployed = false) → (∀ x ∈ db, x.is_active = false) →
       get_latest_model db = none) := by
  have hnodep : ∀ db : List ModelVersion, (∀ x ∈ db, x.is_deployed = false) →
      get_deployed_model db = none := by
    intro db h
    have hfil : db.filter (fun m => m.is_deployed) = [] := by
      rw [List.filter_eq_nil_iff]
      intro x hx
      simp [h x hx]
    simp [get_deployed_model, hfil, firstByDesc]
  refine ⟨?_, ?_, ?_⟩
  · intro db m hm hdep huniq
    have hfm : m ∈ db.filter (fun m => m.is_deployed) :=
      List.mem_filter.mpr ⟨hm, hdep⟩
    have hall : ∀ x ∈ db.filter (fun m => m.is_deployed), x = m := by
      intro x hx
      obtain ⟨hx1, hx2⟩ := List.mem_filter.mp hx
      exact huniq x hx1 hx2
    have hdm : get_deployed_model db = some m :=
      firstByDesc_all_eq _ m _ hall (List.ne_nil_of_mem hfm)
    simp [get_latest_model, hdm]
  · intro db a hnd ha hact
    have hfa : a ∈ db.filter (fun m => m.is_active) := List.mem_filter.mpr ⟨ha, hact⟩
    obtain ⟨m, hm, hmem, hall⟩ := firstByDesc_created_max _ a hfa
    obtain ⟨hm1, hm2⟩ := List.mem_filter.mp hmem
    refine ⟨m, ?_, hm1, hm2, ?_⟩
    · simp [get_latest_model, hnodep db hnd, latestActiveModel, hm]
    · intro x hx hxact
      exact hall x (List.mem_filter.mpr ⟨hx, hxact⟩)
  · intro db hnd hna
    have hfil : db.filter (fun m => m.is_active) = [] := by
      rw [List.filter_eq_nil_iff]
      intro x hx
      simp [hna x hx]
    simp [get_latest_model, hnodep db hnd, latestActiveModel, hfil, firstByDesc]

theorem C7_get_latest_model_policy_witness :
    get_latest_model [regModelA, regModelB] = some regModelA ∧
    regModelB.created_at > regModelA.created_at ∧
    (∃ m, get_latest_model [regModelB] = some m ∧ m ∈ [regModelB] ∧ m.is_active = true ∧
       ∀ x ∈ [regModelB], x.is_active = true → x.created_at ≤ m.created_at) ∧
    get_latest_model ([] : List ModelVersion) = none :=
  ⟨C7_get_latest_model_policy.1 [regModelA, regModelB] regModelA (by decide) (by decide)
     (by decide),
   by decide,
   C7_get_latest_model_policy.2.1 [regModelB] regModelB (by decide) (by decide) (by decide),
   C7_get_latest_model_policy.2.2 [] (by simp) (by simp)⟩

theorem undeployUpdate_id (m : ModelVersion) : (undeployUpdate m).id = m.id := by
  unfold undeployUpdate
  split <;> rfl

theorem undeployUpdate_not_deployed (m : ModelVersion) :
    (undeployUpdate m).is_deployed = false := by
  unfold undeployUpdate
  split
  · rfl
  · rename_i h
    cases hb : m.is_deployed
    · rfl
    · exact absurd hb h

theorem undeployUpdate_of_deployed (m : ModelVersion) (h : m.is_deployed = true) :
    (undeployUpdate m).status = ModelStatus.completed := by
  unfold undeployUpdate
  rw [if_pos h]

theorem undeployUpdate_of_not_deployed (m : ModelVersion) (h : m.is_deployed = false) :
    undeployUpdate m = m := by
  unfold undeployUpdate
  rw [if_neg (by simp [h])]

theorem deployUpdate_id (mid : Nat) (notes : Option String) (now : Int)
    (m : ModelVersion) : (deployUpdate mid notes now m).id = m.id := by
  unfold deployUpdate
  split <;> rfl

theorem deployUpdate_hit (mid : Nat) (notes : Option String) (now : Int)
    (m : ModelVersion) (h : m.id = mid) :
    (deployUpdate mid notes now m).is_deployed = true ∧
    (deployUpdate mid notes now m).status = ModelStatus.deployed ∧
    (deployUpdate mid notes now m).deployed_at = some now := by
  unfold deployUpdate
  rw [if_pos (by simp [h])]
  exact ⟨rfl, rfl, rfl⟩

theorem deployUpdate_miss (mid : Nat) (notes : Option String) (now : Int)
    (m : ModelVersion) (h : ¬ m.id = mid) : deployUpdate mid notes now m = m := by
  unfold deployUpdate
  rw [if_neg (by simp [h])]

theorem deployStep_deployed (mid : Nat) (notes : Option String) (now : Int)
    (m : ModelVersion) :
    (deployUpdate mid notes now (undeployUpdate m)).is_deployed = (m.id == mid) := by
  by_cases h : m.id = mid
  · have hit := deployUpdate_hit mid notes now (undeployUpdate m)
      (by rw [undeployUpdate_id]; exact h)
    simp [hit.1, h]
  · rw [deployUpdate_miss mid notes now (undeployUpdate m)
      (by rw [undeployUpdate_id]; exact h), undeployUpdate_not_deployed]
    simp [h]

theorem deployStep_id (mid : Nat) (notes : Option String) (now : Int)
    (m : ModelVersion) :
    (deployUpdate mid notes now (undeployUpdate m)).id = m.id := by
  rw [deployUpdate_id, undeployUpdate_id]

theorem countDeployed_map (db : List ModelVersion) (f : ModelVersion → ModelVersion) :
    countDeployed (db.map f) = db.countP (fun m => (f m).is_deployed) := by
  unfold countDeployed
  rw [List.countP_map]
  rfl

theorem countP_id_eq_one (db : List ModelVersion) (mid : Nat)
    (hnodup : (db.map ModelVersion.id).Nodup) (model : ModelVersion)
    (hmem : model ∈ db) (hid : model.id = mid) :
    db.countP (fun m => m.id == mid) = 1 := by
  have h1 : db.countP (fun m => m.id == mid) = (db.map ModelVersion.id).count mid := by
    rw [List.count, List.countP_map]
    rfl
  rw [h1]
  have hle : (db.map ModelVersion.id).count mid ≤ 1 :=
    List.nodup_iff_count_le_one.mp hnodup mid
  have hge : 0 < (db.map ModelVersion.id).count mid :=
    List.count_pos_iff.mpr (hid ▸ List.mem_map_of_mem ModelVersion.id hmem)
  omega

theorem deploy_model_ok_cases (db : List ModelVersion) (mid : Nat)
    (notes : Option String) (now : Int) (db' : List ModelVersion)
    (h : deploy_model db mid notes now = Except.ok db') :
    ∃ model, get_model_by_id db mid = some model ∧
      model.status = ModelStatus.completed ∧
      ((model.is_deployed = true ∧ db' = db) ∨
       (model.is_deployed = false ∧
        db' = (db.map undeployUpdate).map (deployUpdate mid notes now))) := by
  unfold deploy_model at h
  split at h
  · exact Except.noConfusion h
  · rename_i model hfind
    split at h
    · exact Except.noConfusion h
    · rename_i hstat
      have hcomp : model.status = ModelStatus.completed := not_not.mp hstat
      split at h
      · rename_i hdep
        injection h with h
        exact ⟨model, hfind, hcomp, Or.inl ⟨hdep, h.symm⟩⟩
      · rename_i hdep
        injection h with h
        have hdep' : model.is_deployed = false := by
          cases hb : model.is_deployed
          · rfl
          · exact absurd hb hdep
        exact ⟨model, hfind, hcomp, Or.inr ⟨hdep', h.symm⟩⟩

theorem regInv_register (db : List ModelVersion) (m : ModelVersion) (hinv : RegInv db)
    (hdep : m.is_deployed = false) (hfresh : m.id ∉ db.map ModelVersion.id) :
    RegInv (db ++ [m]) := by
  obtain ⟨hcount, hcons, hnodup⟩ := hinv
  refine ⟨?_, ?_, ?_⟩
  · unfold countDeployed at hcount ⊢
    rw [List.countP_append]
    simpa [hdep] using hcount
  · intro x hx hxdep
    rcases List.mem_append.mp hx with hx | hx
    · exact hcons x hx hxdep
    · rcases List.mem_singleton.mp hx with rfl
      rw [hdep] at hxdep
      exact Bool.noConfusion hxdep
  · rw [List.map_append]
    refine List.Nodup.append hnodup (List.nodup_singleton _) ?_
    intro a ha hb
    rcases List.mem_singleton.mp hb with rfl
    exact hfresh ha

theorem regInv_deploy (db : List ModelVersion) (mid : Nat) (notes : Option String)
    (now : Int) (db' : List ModelVersion) (hinv : RegInv db)
    (h : deploy_model db mid notes now = Except.ok db') : RegInv db' := by
  obtain ⟨hcount, hcons, hnodup⟩ := hinv
  obtain ⟨model, hfind, hcomp, hcase⟩ := deploy_model_ok_cases db mid notes now db' h
  have hmem : model ∈ db := List.mem_of_find?_eq_some hfind
  have hmid : model.id = mid := by
    have := List.find?_some hfind
    simpa using this
  rcases hcase with ⟨_, rfl⟩ | ⟨hdep, rfl⟩
  · exact ⟨hcount, hcons, hnodup⟩
  · refine ⟨?_, ?_, ?_⟩
    · have hc : countDeployed
          ((db.map undeployUpdate).map (deployUpdate mid notes now)) =
          db.countP (fun m => m.id == mid) := by
        unfold countDeployed
        rw [List.countP_map, List.countP_map]
        apply List.countP_congr
        intro x _
        simp [Function.comp, deployStep_deployed]
      rw [hc, countP_id_eq_one db mid hnodup model hmem hmid]
    · intro x hx hxdep
      obtain ⟨z, hz, rfl⟩ := List.mem_map.mp hx
      obtain ⟨y, hy, rfl⟩ := List.mem_map.mp hz
      rw [deployStep_deployed] at hxdep
      have hyid : y.id = mid := by simpa using hxdep
      exact (deployUpdate_hit mid notes now (undeployUpdate y)
        (by rw [undeployUpdate_id]; exact hyid)).2.1
    · have hmapid : ((db.map undeployUpdate).map
          (deployUpdate mid notes now)).map ModelVersion.id
          = db.map ModelVersion.id := by
        rw [List.map_map, List.map_map]
        apply List.map_congr_left
        intro x _
        simp [Function.comp, deployStep_id]
      rw [hmapid]
      exact hnodup

theorem regInv_undeploy (db : List ModelVersion) (mid : Nat)
    (db' : List ModelVersion) (hinv : RegInv db)
    (h : undeploy_model db mid = Except.ok db') : RegInv db' := by
  obtain ⟨hcount, hcons, hnodup⟩ := hinv
  unfold undeploy_model at h
  split at h
  · exact Except.noConfusion h
  · rename_i model hfind
    split at h
    · injection h with h
      subst h
      refine ⟨?_, ?_, ?_⟩
      · rw [countDeployed_map]
        calc db.countP (fun m => (if m.id == mid then
              { m with is_deployed := false, status := ModelStatus.completed }
              else m).is_deployed)
            ≤ db.countP (fun m => m.is_deployed) := by
              apply List.countP_mono_left
              intro x _ hx
              by_cases hxid : x.id = mid
              · rw [if_pos (by simp [hxid])] at hx
                exact Bool.noConfusion hx
              · rwa [if_neg (by simp [hxid])] at hx
          _ ≤ 1 := hcount
      · intro x hx hxdep
        obtain ⟨y, hy, rfl⟩ := List.mem_map.mp hx
        by_cases hyid : y.id = mid
        · rw [if_pos (by simp [hyid])] at hxdep
          exact Bool.noConfusion hxdep
        · rw [if_neg (by simp [hyid])] at hxdep ⊢
          exact hcons y hy hxdep
      · have : (db.map (fun m => if m.id == mid then
            { m with is_deployed := false, status := ModelStatus.completed }
            else m)).map ModelVersion.id = db.map ModelVersion.id := by
          rw [List.map_map]
          apply List.map_congr_left
          intro x _
          by_cases hxid : x.id = mid
          · simp [Function.comp, if_pos, hxid]
          · simp [Function.comp, if_neg, hxid]
        rw [this]
        exact hnodup
    · injection h with h
      subst h
      exact ⟨hcount, hcons, hnodup⟩

theorem regInv_archive (db : List ModelVersion) (mid : Nat)
    (db' : List ModelVersion) (hinv : RegInv db)
    (h : archive_model db mid = Except.ok db') : RegInv db' := by
  obtain ⟨hcount, hcons, hnodup⟩ := hinv
  unfold archive_model at h
  split at h
  · exact Except.noConfusion h
  · rename_i model hfind
    have hmem : model ∈ db := List.mem_of_find?_eq_some hfind
    have hmid : model.id = mid := by
      have := List.find?_some hfind
      simpa using this
    split at h
    · exact Except.noConfusion h
    · rename_i hnotdep
      have hmodeldep : model.is_deployed = false := by
        cases hb : model.is_deployed
        · rfl
        · exact absurd hb hnotdep
      injection h with h
      subst h
      refine ⟨?_, ?_, ?_⟩
      · rw [countDeployed_map]
        have : db.countP (fun m => (if m.id == mid then
            { m with status := ModelStatus.archived, is_active := false }
            else m).is_deployed) = db.countP (fun m => m.is_deployed) := by
          apply List.countP_congr
          intro x _
          by_cases hxid : x.id = mid
          · rw [if_pos (by simp [hxid])]
          · rw [if_neg (by simp [hxid])]
        rw [this]
        exact hcount
      · intro x hx hxdep
        obtain ⟨y, hy, rfl⟩ := List.mem_map.mp hx
        by_cases hyid : y.id = mid
        · rw [if_pos (by simp [hyid])] at hxdep
          have : y.is_deployed = true := hxdep
          have hyeq : y = model := List.inj_on_of_nodup_map hnodup hy hmem
            (by rw [hyid, hmid])
          rw [hyeq, hmodeldep] at this
          exact Bool.noConfusion this
        · rw [if_neg (by simp [hyid])] at hxdep ⊢
          exact hcons y hy hxdep
      · have : (db.map (fun m => if m.id == mid then
            { m with status := ModelStatus.archived, is_active := false }
            else m)).map ModelVersion.id = db.map ModelVersion.id := by
          rw [List.map_map]
          apply List.map_congr_left
          intro x _
          by_cases hxid : x.id = mid
          · simp [Function.comp, if_pos, hxid]
          · simp [Function.comp, if_neg, hxid]
        rw [this]
        exact hnodup

theorem reachable_regInv (db : List ModelVersion) (h : ReachableRegistry db) :
    RegInv db := by
  induction h with
  | init =>
    refine ⟨?_, ?_, ?_⟩
    · simp [countDeployed]
    · intro m hm
      cases hm
    · simp
  | register db m _ hdep hfresh ih => exact regInv_register db m ih hdep hfresh
  | deploy db mid notes now db' _ hok ih => exact regInv_deploy db mid notes now db' ih hok
  | undeploy db mid db' _ hok ih => exact regInv_undeploy db mid db' ih hok
  | archive db mid db' _ hok ih => exact regInv_archive db mid db' ih hok

/-- C1: whenever `deploy_model` succeeds on a consistent registry (unique ids, deployed
rows in DEPLOYED status), afterwards the target row is deployed with status DEPLOYED
and `deployed_at` set, every row deployed beforehand is now undeployed with status
COMPLETED, and exactly one row is deployed overall; and in every registry state
reachable through register/deploy/undeploy/archive, at most one row is deployed. -/
theorem C1_deploy_single_deployment :
    (∀ db model_id notes now db', (db.map ModelVersion.id).Nodup →
       deployedConsistent db →
       deploy_model db model_id notes now = Except.ok db' →
       (∃ m', m' ∈ db' ∧ m'.id = model_id ∧ m'.is_deployed = true ∧
          m'.status = ModelStatus.deployed ∧ m'.deployed_at = some now) ∧
       (∀ m ∈ db, m.is_deployed = true →
          ∃ m', m' ∈ db' ∧ m'.id = m.id ∧ m'.is_deployed = false ∧
            m'.status = ModelStatus.completed) ∧
       countDeployed db' = 1) ∧
    (∀ db, ReachableRegistry db → countDeployed db ≤ 1) := by
  constructor
  · intro db mid notes now db' hnodup hcons hok
    obtain ⟨model, hfind, hcomp, hcase⟩ := deploy_model_ok_cases db mid notes now db' hok
    have hmem : model ∈ db := List.mem_of_find?_eq_some hfind
    have hmid : model.id = mid := by
      have := List.find?_some hfind
      simpa using this
    rcases hcase with ⟨hdep, rfl⟩ | ⟨hdep, rfl⟩
    · exact absurd (hcons model hmem hdep ▸ hcomp) (by simp [hcons model hmem hdep, hcomp])
    · refine ⟨?_, ?_, ?_⟩
      · refine ⟨deployUpdate mid notes now (undeployUpdate model), ?_, ?_, ?_⟩
        · exact List.mem_map_of_mem _ (List.mem_map_of_mem _ hmem)
        · rw [deployStep_id, hmid]
        · have hit := deployUpdate_hit mid notes now (undeployUpdate model)
            (by rw [undeployUpdate_id]; exact hmid)
          exact ⟨hit.1, hit.2.1, hit.2.2⟩
      · intro m hm hmdep
        have hne : ¬ m.id = mid := by
          intro heq
          have : m = model := List.inj_on_of_nodup_map hnodup hm hmem (by rw [heq, hmid])
          rw [this, hdep] at hmdep
          exact Bool.noConfusion hmdep
        refine ⟨deployUpdate mid notes now (undeployUpdate m),
          List.mem_map_of_mem _ (List.mem_map_of_mem _ hm), deployStep_id mid notes now m,
          ?_, ?_⟩
        · rw [deployStep_deployed]
          simp [hne]
        · rw [deployUpdate_miss mid notes now (undeployUpdate m)
            (by rw [undeployUpdate_id]; exact hne)]
          exact undeployUpdate_of_deployed m hmdep
      · have hc : countDeployed
            ((db.map undeployUpdate).map (deployUpdate mid notes now)) =
            db.countP (fun m => m.id == mid) := by
          unfold countDeployed
          rw [List.countP_map, List.countP_map]
          apply List.countP_congr
          intro x _
          simp [Function.comp, deployStep_deployed]
        rw [hc, countP_id_eq_one db mid hnodup model hmem hmid]
  · intro db h
    exact (reachable_regInv db h).1

theorem C1_deploy_single_deployment_witness :
    ((∃ m', m' ∈ ((([regModelA, regModelB].map undeployUpdate).map
          (deployUpdate 2 none 5))) ∧ m'.id = 2 ∧ m'.is_deployed = true ∧
        m'.status = ModelStatus.deployed ∧ m'.deployed_at = some 5) ∧
     (∀ m ∈ [regModelA, regModelB], m.is_deployed = true →
        ∃ m', m' ∈ (([regModelA, regModelB].map undeployUpdate).map
            (deployUpdate 2 none 5)) ∧ m'.id = m.id ∧ m'.is_deployed = false ∧
          m'.status = ModelStatus.completed) ∧
     countDeployed (([regModelA, regModelB].map undeployUpdate).map
        (deployUpdate 2 none 5)) = 1) ∧
    countDeployed [regModelB] ≤ 1 :=
  ⟨C1_deploy_single_deployment.1 [regModelA, regModelB] 2 none 5
     (([regModelA, regModelB].map undeployUpdate).map (deployUpdate 2 none 5))
     (by decide) (by decide) (by decide),
   C1_deploy_single_deployment.2 [regModelB]
     (ReachableRegistry.register [] regModelB ReachableRegistry.init (by decide)
       (by simp))⟩

theorem length_mapWithPrefixGo {α β : Type} (f : List α → α → β) (pre : List α)
    (l : List α) : (mapWithPrefixGo f pre l).length = l.length := by
  induction l generalizing pre with
  | nil => rfl
  | cons x xs ih => simp [mapWithPrefixGo, ih]

theorem length_mapWithPrefix {α β : Type} (f : List α → α → β) (l : List α) :
    (mapWithPrefix f l).length = l.length :=
  length_mapWithPrefixGo f [] l

theorem keptEntry_rawEntryOfRecord (x : FarmData) :
    keptEntry (rawEntryOfRecord x) = (decTruthy x.fish_weight && decTruthy x.fish_length) := by
  unfold keptEntry rawEntryOfRecord
  cases hw : x.fish_weight with
  | none => simp [decTruthy]
  | some q =>
    cases hl : x.fish_length with
    | none => cases hz : q.isZero <;> simp [decTruthy, hz]
    | some p =>
      cases hz : q.isZero <;> cases hz2 : p.isZero <;> simp [decTruthy, hz, hz2]

theorem insertByLe_perm {α : Type} (le : α → α → Bool) (x : α) (l : List α) :
    (insertByLe le x l).Perm (x :: l) := by
  induction l with
  | nil => exact List.Perm.refl _
  | cons y ys ih =>
    unfold insertByLe
    split
    · exact List.Perm.refl _
    · exact List.Perm.trans (List.Perm.cons y ih) (List.Perm.swap x y ys)

theorem sortByLe_perm {α : Type} (le : α → α → Bool) (l : List α) :
    (sortByLe le l).Perm l := by
  induction l with
  | nil => exact List.Perm.refl _
  | cons x xs ih =>
    unfold sortByLe
    exact List.Perm.trans (insertByLe_perm le x (sortByLe le xs)) (List.Perm.cons x ih)

theorem fetch_training_data_ok_length (env : TrainEnv) (db : DB) (ids : Finset Nat)
    (rows : List DataRow) (h : fetch_training_data env db ids = Except.ok rows) :
    rows.length = ((selectedRecords db ids).filter
      (fun x => decTruthy x.fish_weight && decTruthy x.fish_length)).length := by
  unfold fetch_training_data at h
  split at h
  · exact Except.noConfusion h
  · split at h
    · exact Except.noConfusion h
    · injection h with h
      subst h
      rw [length_mapWithPrefix, (sortByLe_perm _ _).length_eq]
      unfold fetchDf fetchFarmSorted
      rw [← List.countP_eq_length_filter, ← List.countP_eq_length_filter,
        List.countP_map, (sortByLe_perm _ _).countP_eq]
      apply List.countP_congr
      intro x _
      simp [Function.comp, keptEntry_rawEntryOfRecord]

/-- C10: in `fetch_training_data` the kg-to-gram conversion is guarded by Python
truthiness of the stored weight, so a record whose stored `fish_weight` is exactly 0 is
mapped to a missing target and dropped by the missing-target filter: the fetched
DataFrame counts only records with non-zero (truthy) weight and length, although the
zero-weight record passes the eligibility predicate of the unused pool. -/
theorem C10_zero_weight_rows_never_reach_training (db : DB) (r : FarmData)
    (env : TrainEnv) (ids : Finset Nat) (rows : List DataRow)
    (hr : r ∈ db.farm_data) (hw : r.fish_weight = some 0)
    (hl : r.fish_length.isSome = true) (hv : r.verified = true)
    (hfetch : fetch_training_data env db ids = Except.ok rows) :
    eligibleSample r = true ∧ r.id ∈ eligibleIds db ∧
    (rawEntryOfRecord r).fish_weight = none ∧
    (decTruthy r.fish_weight && decTruthy r.fish_length) = false ∧
    rows.length = ((selectedRecords db ids).filter
      (fun x => decTruthy x.fish_weight && decTruthy x.fish_length)).length := by
  have h0 : decTruthy (some (0 : Flt)) = false := by decide
  refine ⟨?_, ?_, ?_, ?_, fetch_training_data_ok_length env db ids rows hfetch⟩
  · simp [eligibleSample, hw, hl, hv]
  · unfold eligibleIds
    rw [List.mem_toFinset]
    exact List.mem_map_of_mem _
      (List.mem_filter.mpr ⟨hr, by simp [eligibleSample, hw, hl, hv]⟩)
  · simp only [rawEntryOfRecord, hw]
    decide
  · rw [hw, h0, Bool.false_and]

theorem C10_zero_weight_rows_never_reach_training_witness :
    eligibleSample zeroWeightSample = true ∧
    zeroWeightSample.id ∈ eligibleIds c10db ∧
    (rawEntryOfRecord zeroWeightSample).fish_weight = none ∧
    (decTruthy zeroWeightSample.fish_weight && decTruthy zeroWeightSample.fish_length)
      = false ∧
    ([featureRow envZero [] (rawEntryOfRecord (mkSample 3))].length
      = ((selectedRecords c10db {5, 3}).filter
          (fun x => decTruthy x.fish_weight && decTruthy x.fish_length)).length) :=
  C10_zero_weight_rows_never_reach_training c10db zeroWeightSample envZero {5, 3}
    [featureRow envZero [] (rawEntryOfRecord (mkSample 3))]
    (by decide) (by decide) (by decide) (by decide) (by decide)

/-- C9 counterexample: with `min_app_version = "9.0.0"` and the non-null app version
`""`, the code returns compatible (Python falsiness of the empty string short-circuits
to True) although the lexicographic comparison `app_version >= min_app_version` is
false — so "otherwise it returns the result of plain lexicographic string comparison"
fails for non-null inputs. -/
theorem C9_counterexample_empty_app_version :
    is_version_compatible c9Model (some "") = true ∧
    strGe "" "9.0.0" = false := by
  constructor
  · rfl
  · decide

/-- C9 (amended): `is_version_compatible` returns true whenever `min_app_version` is
null or empty, or `app_version` is null or empty; otherwise it returns the plain
lexicographic string comparison `app_version >= min_app_version` (no numeric semver
parsing). -/
theorem C9_version_compatibility_amended (m : ModelVersion) (app : Option String)
    (minv appv : String) :
    (strTruthy m.min_app_version = false → is_version_compatible m app = true) ∧
    (strTruthy app = false → is_version_compatible m app = true) ∧
    (m.min_app_version = some minv → app = some appv →
       minv.isEmpty = false → appv.isEmpty = false →
       is_version_compatible m app = strGe appv minv) := by
  refine ⟨?_, ?_, ?_⟩
  · intro h
    simp [is_version_compatible, h]
  · intro h
    simp [is_version_compatible, h]
  · intro h1 h2 h3 h4
    simp [is_version_compatible, strTruthy, h1, h2, h3, h4]

theorem C9_version_compatibility_amended_witness :
    is_version_compatible c9Model (some "10.0.0") = strGe "10.0.0" "9.0.0" ∧
    strGe "10.0.0" "9.0.0" = false :=
  ⟨(C9_version_compatibility_amended c9Model (some "10.0.0") "9.0.0" "10.0.0").2.2
     (by rfl) (by rfl) (by rfl) (by rfl), by decide⟩

theorem update_progress_farm (db : DB) (tid : Option Nat) (s : String) (pct : Flt)
    (e : Option Nat) (tot : Nat) :
    (update_progress db tid s pct e tot).farm_data = db.farm_data := by
  unfold update_progress
  cases tid <;> rfl

theorem update_progress_models (db : DB) (tid : Option Nat) (s : String) (pct : Flt)
    (e : Option Nat) (tot : Nat) :
    (update_progress db tid s pct e tot).models = db.models := by
  unfold update_progress
  cases tid <;> rfl

theorem update_progress_sessions (db : DB) (tid : Option Nat) (s : String) (pct : Flt)
    (e : Option Nat) (tot : Nat) :
    (update_progress db tid s pct e tot).sessions = db.sessions := by
  unfold update_progress
  cases tid <;> rfl

theorem progressTaskUpdate_fields (s : String) (pct : Flt) (e : Option Nat) (tot : Nat)
    (t : TrainingTask) :
    (progressTaskUpdate s pct e tot t).id = t.id ∧
    (progressTaskUpdate s pct e tot t).status = t.status ∧
    (progressTaskUpdate s pct e tot t).result_model_id = t.result_model_id ∧
    (progressTaskUpdate s pct e tot t).error_message = t.error_message ∧
    (progressTaskUpdate s pct e tot t).completed_at = t.completed_at ∧
    (progressTaskUpdate s pct e tot t).started_at = t.started_at := by
  cases e <;> exact ⟨rfl, rfl, rfl, rfl, rfl, rfl⟩

theorem progressOnly_update_if (tid : Nat) (s : String) (pct : Flt) (e : Option Nat)
    (tot : Nat) :
    progressOnly (fun t => if t.id == tid then progressTaskUpdate s pct e tot t else t) := by
  intro t
  by_cases h : t.id == tid
  · simp only [h, if_true]
    exact progressTaskUpdate_fields s pct e tot t
  · simp only [h, if_false]
    exact ⟨rfl, rfl, rfl, rfl, rfl, rfl⟩

theorem progressOnly_ident : progressOnly (fun t => t) :=
  fun t => ⟨rfl, rfl, rfl, rfl, rfl, rfl⟩

theorem tasksProgressOnly_refl (l : List TrainingTask) : tasksProgressOnly l l :=
  ⟨fun t => t, by simp, progressOnly_ident⟩

theorem tasksProgressOnly_trans {l1 l2 l3 : List TrainingTask}
    (h12 : tasksProgressOnly l1 l2) (h23 : tasksProgressOnly l2 l3) :
    tasksProgressOnly l1 l3 := by
  obtain ⟨F, rfl, hF⟩ := h12
  obtain ⟨G, rfl, hG⟩ := h23
  refine ⟨fun t => G (F t), by rw [List.map_map]; rfl, ?_⟩
  intro t
  obtain ⟨f1, f2, f3, f4, f5, f6⟩ := hF t
  obtain ⟨g1, g2, g3, g4, g5, g6⟩ := hG (F t)
  exact ⟨g1.trans f1, g2.trans f2, g3.trans f3, g4.trans f4, g5.trans f5, g6.trans f6⟩

theorem update_progress_tasksProgressOnly (db : DB) (tid : Option Nat) (s : String)
    (pct : Flt) (e : Option Nat) (tot : Nat) :
    tasksProgressOnly db.tasks (update_progress db tid s pct e tot).tasks := by
  unfold update_progress
  cases tid with
  | none => exact tasksProgressOnly_refl _
  | some t0 => exact ⟨_, rfl, progressOnly_update_if t0 s pct e tot⟩

theorem dbProgressOnly_refl (db : DB) : dbProgressOnly db db :=
  ⟨rfl, rfl, rfl, tasksProgressOnly_refl _⟩

theorem dbProgressOnly_trans {a b c : DB} (hab : dbProgressOnly a b)
    (hbc : dbProgressOnly b c) : dbProgressOnly a c :=
  ⟨hbc.1.trans hab.1, hbc.2.1.trans hab.2.1, hbc.2.2.1.trans hab.2.2.1,
   tasksProgressOnly_trans hab.2.2.2 hbc.2.2.2⟩

theorem update_progress_dbProgressOnly (db : DB) (tid : Option Nat) (s : String)
    (pct : Flt) (e : Option Nat) (tot : Nat) :
    dbProgressOnly db (update_progress db tid s pct e tot) :=
  ⟨update_progress_farm db tid s pct e tot, update_progress_models db tid s pct e tot,
   update_progress_sessions db tid s pct e tot,
   update_progress_tasksProgressOnly db tid s pct e tot⟩

theorem validateBase_update_progress (db : DB) (tid : Option Nat) (s : String)
    (pct : Flt) (e : Option Nat) (tot : Nat) (bid : Option Nat) :
    validateBase (update_progress db tid s pct e tot) bid = validateBase db bid := by
  unfold validateBase
  rw [update_progress_models]

theorem versionTaken_update_progress (db : DB) (tid : Option Nat) (s : String)
    (pct : Flt) (e : Option Nat) (tot : Nat) (v : String) :
    versionTaken (update_progress db tid s pct e tot) v = versionTaken db v := by
  unfold versionTaken
  rw [update_progress_models]

theorem get_unused_update_progress (db : DB) (tid : Option Nat) (s : String)
    (pct : Flt) (e : Option Nat) (tot : Nat) :
    get_unused_farm_data (update_progress db tid s pct e tot) =
      get_unused_farm_data db := by
  unfold get_unused_farm_data eligibleIds usedIds
  rw [update_progress_farm, update_progress_sessions]

theorem fetch_update_progress (env : TrainEnv) (db : DB) (tid : Option Nat)
    (s : String) (pct : Flt) (e : Option Nat) (tot : Nat) (ids : Finset Nat) :
    fetch_training_data env (update_progress db tid s pct e tot) ids =
      fetch_training_data env db ids := by
  unfold fetch_training_data fetchDf fetchFarmSorted selectedRecords
  rw [update_progress_farm]

theorem trainOutcomeShape_mono (db dbz : DB) (p : TrainParams) (unused : Finset Nat)
    (out : DB × Except TrainError ModelVersion) (hpo : dbProgressOnly db dbz)
    (h : trainOutcomeShape dbz p unused out) : trainOutcomeShape db p unused out := by
  obtain ⟨hfarm, hmodels, hsessions, htasks⟩ := hpo
  rcases h with ⟨e, h2, hm, hs, hf, ht⟩ | ⟨mv, s, h2, hm, hs, hf, ht, rest⟩
  · exact Or.inl ⟨e, h2, hm.trans hmodels, hs.trans hsessions, hf.trans hfarm,
      tasksProgressOnly_trans htasks ht⟩
  · exact Or.inr ⟨mv, s, h2, by rw [hm, hmodels], by rw [hs, hsessions],
      hf.trans hfarm, tasksProgressOnly_trans htasks ht, rest⟩

theorem trainStageCommit_shape (db : DB) (p : TrainParams) (unused : Finset Nat)
    (parts : SplitData) (fit : FitResult) (t0 t1 : Int) :
    trainOutcomeShape db p unused (trainStageCommit db p unused parts fit t0 t1) :=
  Or.inr ⟨newModelRow db p unused t1,
    newSessionRow (newModelRow db p unused t1) p unused parts fit t0 t1,
    rfl, rfl, rfl, rfl, tasksProgressOnly_refl _, rfl, rfl, rfl, rfl, rfl, rfl⟩

theorem trainStageUpload_shape (ml : MLOracle) (db : DB) (p : TrainParams)
    (unused : Finset Nat) (parts : SplitData) (fit : FitResult) (t0 t1 : Int) :
    trainOutcomeShape db p unused (trainStageUpload ml db p unused parts fit t0 t1) := by
  unfold trainStageUpload
  split
  · exact Or.inl ⟨_, rfl, rfl, rfl, rfl, tasksProgressOnly_refl _⟩
  · exact trainOutcomeShape_mono _ _ _ _ _
      (update_progress_dbProgressOnly db p.task_id "Saving model metadata" 95 none p.epochs)
      (trainStageCommit_shape _ p unused parts fit t0 t1)

theorem trainStageFit_shape (ml : MLOracle) (db : DB) (p : TrainParams)
    (base : Option ModelVersion) (unused : Finset Nat) (parts : SplitData)
    (t0 t1 : Int) :
    trainOutcomeShape db p unused
      (trainStageFit ml db p base unused parts t0 t1) := by
  unfold trainStageFit
  split
  · exact Or.inl ⟨_, rfl, rfl, rfl, rfl, tasksProgressOnly_refl _⟩
  · refine trainOutcomeShape_mono _ _ _ _ _ ?_ (trainStageUpload_shape ml _ p unused parts _ t0 t1)
    exact dbProgressOnly_trans
      (update_progress_dbProgressOnly db p.task_id "Evaluating model" 82 none p.epochs)
      (update_progress_dbProgressOnly _ p.task_id "Converting and saving models" 85 none p.epochs)

theorem trainStageSplit_shape (ml : MLOracle) (db : DB) (p : TrainParams)
    (base : Option ModelVersion) (unused : Finset Nat) (df2 : List DataRow)
    (t0 t1 : Int) :
    trainOutcomeShape db p unused
      (trainStageSplit ml db p base unused df2 t0 t1) := by
  unfold trainStageSplit
  split
  · exact Or.inl ⟨_, rfl, rfl, rfl, rfl, tasksProgressOnly_refl _⟩
  · refine trainOutcomeShape_mono _ _ _ _ _ ?_ (trainStageFit_shape ml _ p base unused _ t0 t1)
    exact dbProgressOnly_trans
      (update_progress_dbProgressOnly db p.task_id "Scaling features" 22 none p.epochs)
      (dbProgressOnly_trans
        (update_progress_dbProgressOnly _ p.task_id "Preparing model" 25 none p.epochs)
        (update_progress_dbProgressOnly _ p.task_id "Training model" 30 none p.epochs))

theorem trainStageClean_shape (clean : CleanOracle) (ml : MLOracle) (db : DB)
    (p : TrainParams) (base : Option ModelVersion) (unused : Finset Nat)
    (df : List DataRow) (t0 t1 : Int) :
    trainOutcomeShape db p unused
      (trainStageClean clean ml db p base unused df t0 t1) := by
  unfold trainStageClean
  exact trainOutcomeShape_mono _ _ _ _ _
    (update_progress_dbProgressOnly db p.task_id "Splitting and scaling data" 20 none p.epochs)
    (trainStageSplit_shape ml _ p base unused _ t0 t1)

theorem trainStageFetch_shape (env : TrainEnv) (clean : CleanOracle) (ml : MLOracle)
    (db : DB) (p : TrainParams) (base : Option ModelVersion) (unused : Finset Nat)
    (t0 t1 : Int) :
    trainOutcomeShape db p unused
      (trainStageFetch env clean ml db p base unused t0 t1) := by
  unfold trainStageFetch
  split
  · exact Or.inl ⟨_, rfl, rfl, rfl, rfl, tasksProgressOnly_refl _⟩
  · split
    · exact Or.inl ⟨_, rfl, rfl, rfl, rfl, tasksProgressOnly_refl _⟩
    · exact trainOutcomeShape_mono _ _ _ _ _
        (update_progress_dbProgressOnly db p.task_id "Cleaning and preprocessing data" 17 none p.epochs)
        (trainStageClean_shape clean ml _ p base unused _ t0 t1)

theorem train_from_fetch_shape (env : TrainEnv) (clean : CleanOracle) (ml : MLOracle)
    (db : DB) (p : TrainParams) (base : Option ModelVersion) (unused : Finset Nat)
    (t0 t1 : Int) :
    trainOutcomeShape db p unused
      (train_from_fetch env clean ml db p base unused t0 t1) := by
  unfold train_from_fetch
  exact trainOutcomeShape_mono _ _ _ _ _
    (update_progress_dbProgressOnly db p.task_id "Processing features" 15 none p.epochs)
    (trainStageFetch_shape env clean ml _ p base unused t0 t1)

theorem trainStagePool_shape (env : TrainEnv) (clean : CleanOracle) (ml : MLOracle)
    (db : DB) (p : TrainParams) (base : Option ModelVersion) (t0 t1 : Int) :
    trainOutcomeShape db p (get_unused_farm_data db)
      (trainStagePool env clean ml db p base t0 t1) := by
  unfold trainStagePool
  split
  · exact Or.inl ⟨_, rfl, rfl, rfl, rfl, tasksProgressOnly_refl _⟩
  · exact train_from_fetch_shape env clean ml db p base (get_unused_farm_data db) t0 t1

theorem trainStageValidated_shape (env : TrainEnv) (clean : CleanOracle)
    (ml : MLOracle) (db : DB) (p : TrainParams) (t0 t1 : Int) :
    trainOutcomeShape db p (get_unused_farm_data db)
      (trainStageValidated env clean ml db p t0 t1) := by
  unfold trainStageValidated
  split
  · exact Or.inl ⟨_, rfl, rfl, rfl, rfl, tasksProgressOnly_refl _⟩
  · split
    · exact Or.inl ⟨_, rfl, rfl, rfl, rfl, tasksProgressOnly_refl _⟩
    · rename_i base hbase hver
      have h := trainStagePool_shape env clean ml
        (update_progress db p.task_id "Fetching training data" 10 none p.epochs)
        p base t0 t1
      rw [get_unused_update_progress] at h
      exact trainOutcomeShape_mono _ _ _ _ _
        (update_progress_dbProgressOnly db p.task_id "Fetching training data" 10 none p.epochs) h

theorem train_model_shape (env : TrainEnv) (clean : CleanOracle) (ml : MLOracle)
    (db : DB) (p : TrainParams) (t0 t1 : Int) :
    trainOutcomeShape db p (get_unused_farm_data db)
      (train_model env clean ml db p t0 t1) := by
  unfold train_model
  have h := trainStageValidated_shape env clean ml
    (update_progress db p.task_id "Validating base model" 5 none p.epochs) p t0 t1
  rw [get_unused_update_progress] at h
  exact trainOutcomeShape_mono _ _ _ _ _
    (update_progress_dbProgressOnly db p.task_id "Validating base model" 5 none p.epochs) h

theorem run_training_task_eq_of_error (env : TrainEnv) (clean : CleanOracle)
    (ml : MLOracle) (db : DB) (p : TrainParams) (tid : Nat) (t0 t1 : Int) (db2 : DB)
    (e : TrainError)
    (heq : train_model env clean ml (updateTask db tid (taskRunningUpdate t0))
      { p with task_id := some tid } t0 t1 = (db2, Except.error e)) :
    run_training_task env clean ml db p tid t0 t1 =
      updateTask db2 tid (taskFailedUpdate t1 (trainErrorMessage e)) := by
  unfold run_training_task
  rw [heq]

theorem run_training_task_eq_of_ok (env : TrainEnv) (clean : CleanOracle)
    (ml : MLOracle) (db : DB) (p : TrainParams) (tid : Nat) (t0 t1 : Int) (db2 : DB)
    (mv : ModelVersion)
    (heq : train_model env clean ml (updateTask db tid (taskRunningUpdate t0))
      { p with task_id := some tid } t0 t1 = (db2, Except.ok mv)) :
    run_training_task env clean ml db p tid t0 t1 =
      updateTask db2 tid (taskCompletedUpdate t1 mv.id) := by
  unfold run_training_task
  rw [heq]

theorem run_training_task_failure (env : TrainEnv) (clean : CleanOracle)
    (ml : MLOracle) (db : DB) (p : TrainParams) (tid : Nat) (t0 t1 : Int) (db2 : DB)
    (e : TrainError)
    (h : train_model env clean ml (updateTask db tid (taskRunningUpdate t0))
      { p with task_id := some tid } t0 t1 = (db2, Except.error e)) :
    (run_training_task env clean ml db p tid t0 t1).models = db.models ∧
    (run_training_task env clean ml db p tid t0 t1).sessions = db.sessions ∧
    ∀ t ∈ db.tasks, t.id = tid →
      ∃ t', t' ∈ (run_training_task env clean ml db p tid t0 t1).tasks ∧
        t'.id = tid ∧ t'.status = TrainingTaskStatus.failed ∧
        t'.error_message = some (trainErrorMessage e) ∧
        t'.completed_at = some t1 ∧
        t'.result_model_id = t.result_model_id := by
  have hshape := train_model_shape env clean ml
    (updateTask db tid (taskRunningUpdate t0)) { p with task_id := some tid } t0 t1
  rw [h] at hshape
  rw [run_training_task_eq_of_error env clean ml db p tid t0 t1 db2 e h]
  rcases hshape with ⟨e', h2, hm, hs, hf, ht⟩ | ⟨mv, s, h2, _⟩
  · refine ⟨hm, hs, ?_⟩
    intro t htmem htid
    obtain ⟨F, hmap, hF⟩ := ht
    have hrun : (if t.id == tid then taskRunningUpdate t0 t else t)
        = taskRunningUpdate t0 t := by
      rw [if_pos (by simp [htid])]
    have hmem1 : taskRunningUpdate t0 t ∈ (updateTask db tid (taskRunningUpdate t0)).tasks := by
      unfold updateTask
      rw [← hrun]
      exact List.mem_map_of_mem _ htmem
    have hmem2 : F (taskRunningUpdate t0 t) ∈ db2.tasks := by
      rw [hmap]
      exact List.mem_map_of_mem _ hmem1
    obtain ⟨f1, f2, f3, f4, f5, f6⟩ := hF (taskRunningUpdate t0 t)
    have hfid : (F (taskRunningUpdate t0 t)).id = tid := by
      rw [f1]
      exact htid
    refine ⟨taskFailedUpdate t1 (trainErrorMessage e) (F (taskRunningUpdate t0 t)),
      ?_, ?_, rfl, rfl, rfl, ?_⟩
    · unfold updateTask
      have : (if (F (taskRunningUpdate t0 t)).id == tid then
          taskFailedUpdate t1 (trainErrorMessage e) (F (taskRunningUpdate t0 t))
          else F (taskRunningUpdate t0 t))
          = taskFailedUpdate t1 (trainErrorMessage e) (F (taskRunningUpdate t0 t)) := by
        rw [if_pos (by simp [hfid])]
      rw [← this]
      exact List.mem_map_of_mem _ hmem2
    · exact hfid
    · exact f3
  · exact absurd h2 (by simp)

theorem run_training_task_success (env : TrainEnv) (clean : CleanOracle)
    (ml : MLOracle) (db : DB) (p : TrainParams) (tid : Nat) (t0 t1 : Int) (db2 : DB)
    (mv : ModelVersion)
    (h : train_model env clean ml (updateTask db tid (taskRunningUpdate t0))
      { p with task_id := some tid } t0 t1 = (db2, Except.ok mv)) :
    ∃ s, (run_training_task env clean ml db p tid t0 t1).models = db.models ++ [mv] ∧
      (run_training_task env clean ml db p tid t0 t1).sessions = db.sessions ++ [s] ∧
      s.model_version_id = mv.id ∧
      s.farm_data_ids = get_unused_farm_data db := by
  have hshape := train_model_shape env clean ml
    (updateTask db tid (taskRunningUpdate t0)) { p with task_id := some tid } t0 t1
  rw [h] at hshape
  rw [run_training_task_eq_of_ok env clean ml db p tid t0 t1 db2 mv h]
  have hun : get_unused_farm_data (updateTask db tid (taskRunningUpdate t0))
      = get_unused_farm_data db := by
    unfold get_unused_farm_data eligibleIds usedIds updateTask
    rfl
  rcases hshape with ⟨e', h2, _⟩ | ⟨mv', s, h2, hm, hs, hf, ht, hsid, hsids, _⟩
  · exact absurd h2 (by simp)
  · have h2' : Except.ok (ε := TrainError) mv = Except.ok mv' := h2
    have hmv : mv' = mv := (Except.ok.inj h2').symm
    subst hmv
    exact ⟨s, hm, hs, hsid, hun ▸ hsids⟩

/-- C2: the id set returned by the unused-samples computation is disjoint from the
union of all `TrainingSession.farm_data_ids`; and a successful training run appends
exactly one TrainingSession whose `farm_data_ids` is the unused-id set computed at the
start of the run (not the post-cleaning subset — the cleaning oracle is universally
quantified), so that set is disjoint from the next run's unused pool. -/
theorem C2_provenance_exact_and_disjoint (db0 : DB) (env : TrainEnv)
    (clean : CleanOracle) (ml : MLOracle) (db : DB) (p : TrainParams) (t0 t1 : Int)
    (db' : DB) (mv : ModelVersion)
    (hok : train_model env clean ml db p t0 t1 = (db', Except.ok mv)) :
    Disjoint (get_unused_farm_data db0) (usedIds db0) ∧
    db'.sessions.dropLast = db.sessions ∧
    (db'.sessions.getLast?).map TrainingSessionRow.farm_data_ids =
      some (get_unused_farm_data db) ∧
    Disjoint (get_unused_farm_data db') (get_unused_farm_data db) := by
  have hshape := train_model_shape env clean ml db p t0 t1
  rw [hok] at hshape
  rcases hshape with ⟨e', h2, _⟩ | ⟨mv', s, h2, hm, hs, hf, ht, hsid, hsids, _⟩
  · exact absurd h2 (by simp)
  · refine ⟨Finset.sdiff_disjoint, ?_, ?_, ?_⟩
    · rw [hs]
      exact List.dropLast_concat
    · rw [hs, List.getLast?_concat]
      simp [hsids]
    · have helig : eligibleIds db' = eligibleIds db := by
        unfold eligibleIds
        rw [hf]
      have hused : usedIds db' = usedIds db ∪ s.farm_data_ids := by
        unfold usedIds
        rw [hs, List.foldl_append]
        rfl
      unfold get_unused_farm_data
      rw [hused, helig]
      exact Disjoint.mono_right (by rw [hsids]; exact le_sup_right)
        Finset.sdiff_disjoint

theorem C2_provenance_exact_and_disjoint_witness :
    Disjoint (get_unused_farm_data (mkTrainDb 3)) (usedIds (mkTrainDb 3)) ∧
    ((train_model envZero cleanDropOne mlOk (mkTrainDb 100) defaultTrainParams
       0 1).1).sessions.dropLast = (mkTrainDb 100).sessions ∧
    (((train_model envZero cleanDropOne mlOk (mkTrainDb 100) defaultTrainParams
       0 1).1).sessions.getLast?).map TrainingSessionRow.farm_data_ids =
      some (get_unused_farm_data (mkTrainDb 100)) ∧
    Disjoint
      (get_unused_farm_data
        ((train_model envZero cleanDropOne mlOk (mkTrainDb 100) defaultTrainParams
          0 1).1))
      (get_unused_farm_data (mkTrainDb 100)) :=
  C2_provenance_exact_and_disjoint (mkTrainDb 3) envZero cleanDropOne mlOk
    (mkTrainDb 100) defaultTrainParams 0 1
    ((train_model envZero cleanDropOne mlOk (mkTrainDb 100) defaultTrainParams 0 1).1)
    c2mv rfl

/-- C3: if the pipeline raises at any stage, the ledger row for the task transitions
to FAILED with the stringified error and `completed_at` set while `result_model_id`
stays null, and the models and sessions tables are unchanged; the
ModelVersion + TrainingSession pair is appended only on full success, in one commit. -/
theorem C3_failure_ledger_and_atomicity (env : TrainEnv) (clean : CleanOracle)
    (ml : MLOracle) (db : DB) (p : TrainParams) (tid : Nat) (t0 t1 : Int) (db2 : DB) :
    (∀ e, train_model env clean ml (updateTask db tid (taskRunningUpdate t0))
        { p with task_id := some tid } t0 t1 = (db2, Except.error e) →
      (run_training_task env clean ml db p tid t0 t1).models = db.models ∧
      (run_training_task env clean ml db p tid t0 t1).sessions = db.sessions ∧
      ∀ t ∈ db.tasks, t.id = tid → t.result_model_id = none →
        ∃ t', t' ∈ (run_training_task env clean ml db p tid t0 t1).tasks ∧
          t'.id = tid ∧ t'.status = TrainingTaskStatus.failed ∧
          t'.error_message = some (trainErrorMessage e) ∧
          t'.completed_at = some t1 ∧ t'.result_model_id = none) ∧
    (∀ mv, train_model env clean ml (updateTask db tid (taskRunningUpdate t0))
        { p with task_id := some tid } t0 t1 = (db2, Except.ok mv) →
      ∃ s, (run_training_task env clean ml db p tid t0 t1).models = db.models ++ [mv] ∧
        (run_training_task env clean ml db p tid t0 t1).sessions = db.sessions ++ [s] ∧
        s.model_version_id = mv.id) := by
  constructor
  · intro e h
    obtain ⟨hm, hs, htasks⟩ :=
      run_training_task_failure env clean ml db p tid t0 t1 db2 e h
    refine ⟨hm, hs, ?_⟩
    intro t htmem htid hnone
    obtain ⟨t', h1, h2, h3, h4, h5, h6⟩ := htasks t htmem htid
    exact ⟨t', h1, h2, h3, h4, h5, hnone ▸ h6⟩
  · intro mv h
    obtain ⟨s, hm, hs, hsid, _⟩ :=
      run_training_task_success env clean ml db p tid t0 t1 db2 mv h
    exact ⟨s, hm, hs, hsid⟩

theorem C3_failure_ledger_and_atomicity_witness :
    ((run_training_task envZero cleanId mlOk c3errdb defaultTrainParams 9 0 1).models
        = c3errdb.models ∧
      (run_training_task envZero cleanId mlOk c3errdb defaultTrainParams 9 0 1).sessions
        = c3errdb.sessions ∧
      ∀ t ∈ c3errdb.tasks, t.id = 9 → t.result_model_id = none →
        ∃ t', t' ∈ (run_training_task envZero cleanId mlOk c3errdb defaultTrainParams
            9 0 1).tasks ∧
          t'.id = 9 ∧ t'.status = TrainingTaskStatus.failed ∧
          t'.error_message = some (trainErrorMessage TrainError.insufficientPool) ∧
          t'.completed_at = some 1 ∧ t'.result_model_id = none) ∧
    (∃ s, (run_training_task envZero cleanId mlOk c3okdb defaultTrainParams 9 0 1).models
        = c3okdb.models ++ [c3mv] ∧
      (run_training_task envZero cleanId mlOk c3okdb defaultTrainParams 9 0 1).sessions
        = c3okdb.sessions ++ [s] ∧
      s.model_version_id = c3mv.id) :=
  ⟨(C3_failure_ledger_and_atomicity envZero cleanId mlOk c3errdb defaultTrainParams
      9 0 1
      ((train_model envZero cleanId mlOk (updateTask c3errdb 9 (taskRunningUpdate 0))
        { defaultTrainParams with task_id := some 9 } 0 1).1)).1
    TrainError.insufficientPool (by decide),
   (C3_failure_ledger_and_atomicity envZero cleanId mlOk c3okdb defaultTrainParams
      9 0 1
      ((train_model envZero cleanId mlOk (updateTask c3okdb 9 (taskRunningUpdate 0))
        { defaultTrainParams with task_id := some 9 } 0 1).1)).2
    c3mv (by decide)⟩

theorem isOk_exists {ε α : Type} (x : Except ε α) (h : x.isOk = true) :
    ∃ a, x = Except.ok a := by
  cases x with
  | ok a => exact ⟨a, rfl⟩
  | error e => exact Bool.noConfusion h

theorem trainStageSplit_eq_of_ok (ml : MLOracle) (db : DB) (p : TrainParams)
    (base : Option ModelVersion) (unused : Finset Nat) (df2 : List DataRow)
    (t0 t1 : Int) (parts : SplitData)
    (hs : ml.train_test_split df2 = Except.ok parts) :
    trainStageSplit ml db p base unused df2 t0 t1 =
      trainStageFit ml
        (update_progress
          (update_progress
            (update_progress db p.task_id "Scaling features" 22 none p.epochs)
            p.task_id "Preparing model" 25 none p.epochs)
          p.task_id "Training model" 30 none p.epochs)
        p base unused parts t0 t1 := by
  unfold trainStageSplit
  rw [hs]

theorem trainStageFit_eq_of_ok (ml : MLOracle) (db : DB) (p : TrainParams)
    (base : Option ModelVersion) (unused : Finset Nat) (parts : SplitData)
    (t0 t1 : Int) (fit : FitResult)
    (hs : ml.fit_model base parts p.epochs p.batch_size p.learning_rate =
      Except.ok fit) :
    trainStageFit ml db p base unused parts t0 t1 =
      trainStageUpload ml
        (update_progress
          (update_progress db p.task_id "Evaluating model" 82 none p.epochs)
          p.task_id "Converting and saving models" 85 none p.epochs)
        p unused parts fit t0 t1 := by
  unfold trainStageFit
  rw [hs]

theorem trainStageUpload_eq_of_ok (ml : MLOracle) (db : DB) (p : TrainParams)
    (unused : Finset Nat) (parts : SplitData) (fit : FitResult) (t0 t1 : Int)
    (u : Unit) (hs : ml.upload_artifacts p.new_version = Except.ok u) :
    trainStageUpload ml db p unused parts fit t0 t1 =
      trainStageCommit
        (update_progress db p.task_id "Saving model metadata" 95 none p.epochs)
        p unused parts fit t0 t1 := by
  unfold trainStageUpload
  rw [hs]

theorem fetch_training_data_error (env : TrainEnv) (db : DB) (ids : Finset Nat)
    (e : TrainError) (h : fetch_training_data env db ids = Except.error e) :
    e = TrainError.noFarmData ∨ e = TrainError.noValidData := by
  unfold fetch_training_data at h
  split at h
  · exact Or.inl (Except.error.inj h).symm
  · split at h
    · exact Or.inr (Except.error.inj h).symm
    · exact Except.noConfusion h

theorem trainStageClean_error_library (clean : CleanOracle) (ml : MLOracle) (db : DB)
    (p : TrainParams) (base : Option ModelVersion) (unused : Finset Nat)
    (df : List DataRow) (t0 t1 : Int) (e : TrainError)
    (h : (trainStageClean clean ml db p base unused df t0 t1).2 = Except.error e) :
    ∃ msg, e = TrainError.libraryFailure msg := by
  unfold trainStageClean trainStageSplit at h
  split at h
  · rename_i msg heq
    have h' : Except.error (α := ModelVersion) (TrainError.libraryFailure msg)
        = Except.error e := h
    exact ⟨msg, (Except.error.inj h').symm⟩
  · unfold trainStageFit at h
    split at h
    · rename_i msg heq
      have h' : Except.error (α := ModelVersion) (TrainError.libraryFailure msg)
          = Except.error e := h
      exact ⟨msg, (Except.error.inj h').symm⟩
    · unfold trainStageUpload at h
      split at h
      · rename_i msg heq
        have h' : Except.error (α := ModelVersion) (TrainError.libraryFailure msg)
            = Except.error e := h
        exact ⟨msg, (Except.error.inj h').symm⟩
      · unfold trainStageCommit at h
        exact Except.noConfusion h

theorem train_from_fetch_ne_pool (env : TrainEnv) (clean : CleanOracle)
    (ml : MLOracle) (db : DB) (p : TrainParams) (base : Option ModelVersion)
    (unused : Finset Nat) (t0 t1 : Int) :
    (train_from_fetch env clean ml db p base unused t0 t1).2 ≠
      Except.error TrainError.insufficientPool := by
  unfold train_from_fetch trainStageFetch
  split
  · rename_i e heq
    intro hc
    have hc' : Except.error (α := ModelVersion) e
        = Except.error TrainError.insufficientPool := hc
    have he := Except.error.inj hc'
    rcases fetch_training_data_error _ _ _ _ heq with hx | hx <;>
      { rw [he] at hx; exact TrainError.noConfusion hx }
  · split
    · intro hc
      have hc' : Except.error (α := ModelVersion) TrainError.insufficientRows
          = Except.error TrainError.insufficientPool := hc
      exact TrainError.noConfusion (Except.error.inj hc')
    · intro hc
      obtain ⟨msg, hmsg⟩ := trainStageClean_error_library _ _ _ _ _ _ _ _ _ _ hc
      exact TrainError.noConfusion hmsg

theorem train_model_eq_pool (env : TrainEnv) (clean : CleanOracle) (ml : MLOracle)
    (db : DB) (p : TrainParams) (t0 t1 : Int) (base : Option ModelVersion)
    (hbase : validateBase db p.base_model_id = Except.ok base)
    (hver : versionTaken db p.new_version = false) :
    train_model env clean ml db p t0 t1 =
      trainStagePool env clean ml
        (update_progress
          (update_progress db p.task_id "Validating base model" 5 none p.epochs)
          p.task_id "Fetching training data" 10 none p.epochs)
        p base t0 t1 := by
  unfold train_model trainStageValidated
  rw [validateBase_update_progress, hbase]
  simp only [versionTaken_update_progress, hver, Bool.false_eq_true, if_false]

/-- C5: the pre-fetch pool check of `train_model` fails with the insufficient-pool
error iff the unused pool has fewer than 100 samples, and with a pool of at least 100
the run proceeds to the fetch stage (the pipeline from the fetch on can never produce
the insufficient-pool error). -/
theorem C5_pool_floor_check (env : TrainEnv) (clean : CleanOracle) (ml : MLOracle)
    (db : DB) (p : TrainParams) (t0 t1 : Int) (base : Option ModelVersion)
    (hbase : validateBase db p.base_model_id = Except.ok base)
    (hver : versionTaken db p.new_version = false) :
    ((train_model env clean ml db p t0 t1).2 =
        Except.error TrainError.insufficientPool ↔
      (get_unused_farm_data db).card < 100) ∧
    (100 ≤ (get_unused_farm_data db).card →
      train_model env clean ml db p t0 t1 =
        train_from_fetch env clean ml
          (update_progress
            (update_progress db p.task_id "Validating base model" 5 none p.epochs)
            p.task_id "Fetching training data" 10 none p.epochs)
          p base (get_unused_farm_data db) t0 t1) := by
  have heq := train_model_eq_pool env clean ml db p t0 t1 base hbase hver
  have hun : get_unused_farm_data
      (update_progress
        (update_progress db p.task_id "Validating base model" 5 none p.epochs)
        p.task_id "Fetching training data" 10 none p.epochs) =
      get_unused_farm_data db := by
    rw [get_unused_update_progress, get_unused_update_progress]
  constructor
  · constructor
    · intro herr
      by_contra hge
      rw [heq] at herr
      unfold trainStagePool at herr
      rw [hun, if_neg hge] at herr
      exact train_from_fetch_ne_pool _ _ _ _ _ _ _ _ _ herr
    · intro hlt
      rw [heq]
      unfold trainStagePool
      rw [hun, if_pos hlt]
  · intro hge
    rw [heq]
    unfold trainStagePool
    rw [hun, if_neg (by omega)]

theorem C5_pool_floor_check_witness :
    (train_model envZero cleanId mlOk (mkTrainDb 99) defaultTrainParams 0 1).2 =
      Except.error TrainError.insufficientPool ∧
    train_model envZero cleanId mlOk (mkTrainDb 100) defaultTrainParams 0 1 =
      train_from_fetch envZero cleanId mlOk
        (update_progress
          (update_progress (mkTrainDb 100) defaultTrainParams.task_id
            "Validating base model" 5 none defaultTrainParams.epochs)
          defaultTrainParams.task_id "Fetching training data" 10 none
          defaultTrainParams.epochs)
        defaultTrainParams none (get_unused_farm_data (mkTrainDb 100)) 0 1 :=
  ⟨((C5_pool_floor_check envZero cleanId mlOk (mkTrainDb 99) defaultTrainParams 0 1
      none rfl rfl).1).mpr (by decide),
   (C5_pool_floor_check envZero cleanId mlOk (mkTrainDb 100) defaultTrainParams 0 1
      none rfl rfl).2 (by decide)⟩

theorem trainStageFetch_eq_of_fetch (env : TrainEnv) (clean : CleanOracle)
    (ml : MLOracle) (db : DB) (p : TrainParams) (base : Option ModelVersion)
    (unused : Finset Nat) (t0 t1 : Int) (rows : List DataRow)
    (hf : fetch_training_data env db unused = Except.ok rows) :
    trainStageFetch env clean ml db p base unused t0 t1 =
      (if rows.length < 100 then (db, Except.error TrainError.insufficientRows)
       else trainStageClean clean ml
         (update_progress db p.task_id "Cleaning and preprocessing data" 17 none p.epochs)
         p base unused rows t0 t1) := by
  unfold trainStageFetch
  rw [hf]

/-- C6 counterexample: a concrete run with 100 eligible samples whose deduplication
step drops one row has a post-cleaning count of 99 (below the 100 floor), yet the
pipeline succeeds — there is no row-count re-validation after the cleaning stage. -/
theorem C6_counterexample_no_post_clean_floor :
    c6postCleanLen = Except.ok 99 ∧ 99 < 100 ∧
    (train_model envZero cleanDropOne mlOk (mkTrainDb 100) defaultTrainParams
      0 1).2.isOk = true := by
  refine ⟨by decide, by decide, by decide⟩

/-- C6 (amended): the 100-row floor is re-validated after the fetch /
feature-engineering stage and before cleaning — the run fails with the
insufficient-rows error iff the fetched (pre-cleaning) row count is below 100; after
the cleaning stage there is no row-count check, so whatever row count cleaning
leaves, the run succeeds provided the remaining library stages succeed. -/
theorem C6_amended_floor_before_cleaning (env : TrainEnv) (clean : CleanOracle)
    (ml : MLOracle) (db : DB) (p : TrainParams) (t0 t1 : Int)
    (base : Option ModelVersion) (rows : List DataRow)
    (hbase : validateBase db p.base_model_id = Except.ok base)
    (hver : versionTaken db p.new_version = false)
    (hpool : 100 ≤ (get_unused_farm_data db).card)
    (hfetch : fetch_training_data env db (get_unused_farm_data db) = Except.ok rows) :
    ((train_model env clean ml db p t0 t1).2 =
        Except.error TrainError.insufficientRows ↔ rows.length < 100) ∧
    (100 ≤ rows.length → mlTotal ml →
      (train_model env clean ml db p t0 t1).2.isOk = true) := by
  have heq := train_model_eq_pool env clean ml db p t0 t1 base hbase hver
  have hun : get_unused_farm_data
      (update_progress
        (update_progress db p.task_id "Validating base model" 5 none p.epochs)
        p.task_id "Fetching training data" 10 none p.epochs) =
      get_unused_farm_data db := by
    rw [get_unused_update_progress, get_unused_update_progress]
  have hfetch3 : fetch_training_data env
      (update_progress
        (update_progress
          (update_progress
            (update_progress db p.task_id "Validating base model" 5 none p.epochs)
            p.task_id "Fetching training data" 10 none p.epochs)
          p.task_id "Processing features" 15 none p.epochs)
        p.task_id "Processing features" 15 none p.epochs)
      (get_unused_farm_data db) = Except.ok rows := by
    rw [fetch_update_progress, fetch_update_progress, fetch_update_progress,
      fetch_update_progress]
    exact hfetch
  have hform : train_model env clean ml db p t0 t1 =
      trainStageFetch env clean ml
        (update_progress
          (update_progress
            (update_progress db p.task_id "Validating base model" 5 none p.epochs)
            p.task_id "Fetching training data" 10 none p.epochs)
          p.task_id "Processing features" 15 none p.epochs)
        p base (get_unused_farm_data db) t0 t1 := by
    rw [heq]
    unfold trainStagePool
    rw [hun, if_neg (by omega)]
    unfold train_from_fetch
    rfl
  have hstep : train_model env clean ml db p t0 t1 =
      (if rows.length < 100 then
        (update_progress
          (update_progress
            (update_progress db p.task_id "Validating base model" 5 none p.epochs)
            p.task_id "Fetching training data" 10 none p.epochs)
          p.task_id "Processing features" 15 none p.epochs,
         Except.error TrainError.insufficientRows)
       else trainStageClean clean ml
         (update_progress
           (update_progress
             (update_progress
               (update_progress db p.task_id "Validating base model" 5 none p.epochs)
               p.task_id "Fetching training data" 10 none p.epochs)
             p.task_id "Processing features" 15 none p.epochs)
           p.task_id "Cleaning and preprocessing data" 17 none p.epochs)
         p base (get_unused_farm_data db) rows t0 t1) := by
    rw [hform, trainStageFetch_eq_of_fetch env clean ml _ p base _ t0 t1 rows ?hf]
    case hf =>
      rw [fetch_update_progress, fetch_update_progress, fetch_update_progress]
      exact hfetch
  constructor
  · constructor
    · intro herr
      by_contra hge
      rw [hstep, if_neg hge] at herr
      obtain ⟨msg, hmsg⟩ := trainStageClean_error_library _ _ _ _ _ _ _ _ _ _ herr
      exact TrainError.noConfusion hmsg
    · intro hlt
      rw [hstep, if_pos hlt]
  · intro hge hml
    rw [hstep, if_neg (by omega)]
    unfold trainStageClean
    obtain ⟨parts, hparts⟩ := isOk_exists _ (hml.1 (preprocess_training_data clean rows))
    rw [trainStageSplit_eq_of_ok _ _ _ _ _ _ _ _ parts hparts]
    obtain ⟨fit, hfit⟩ := isOk_exists _
      (hml.2.1 base parts p.epochs p.batch_size p.learning_rate)
    rw [trainStageFit_eq_of_ok _ _ _ _ _ _ _ _ fit hfit]
    obtain ⟨u, hu⟩ := isOk_exists _ (hml.2.2 p.new_version)
    rw [trainStageUpload_eq_of_ok _ _ _ _ _ _ _ _ u hu]
    unfold trainStageCommit
    rfl

theorem C6_amended_floor_before_cleaning_witness :
    ((train_model envZero cleanDropOne mlOk (mkTrainDb 100) defaultTrainParams
        0 1).2 = Except.error TrainError.insufficientRows ↔ c6rows.length < 100) ∧
    (train_model envZero cleanDropOne mlOk (mkTrainDb 100) defaultTrainParams
      0 1).2.isOk = true :=
  ⟨(C6_amended_floor_before_cleaning envZero cleanDropOne mlOk (mkTrainDb 100)
      defaultTrainParams 0 1 none c6rows rfl rfl (by decide) rfl).1,
   (C6_amended_floor_before_cleaning envZero cleanDropOne mlOk (mkTrainDb 100)
      defaultTrainParams 0 1 none c6rows rfl rfl (by decide) rfl).2 (by decide)
     ⟨fun l => rfl, fun b s e bs lr => rfl, fun v => rfl⟩⟩

theorem train_model_base_not_completed (env : TrainEnv) (clean : CleanOracle)
    (ml : MLOracle) (db : DB) (p : TrainParams) (t0 t1 : Int) (bid : Nat)
    (b : ModelVersion) (hpb : p.base_model_id = some bid)
    (hfind : db.models.find? (fun m => m.id == bid) = some b)
    (hstat : ¬ b.status = ModelStatus.completed) :
    (train_model env clean ml db p t0 t1).2 =
      Except.error TrainError.baseModelNotCompleted := by
  have hval : validateBase db p.base_model_id =
      Except.error TrainError.baseModelNotCompleted := by
    simp only [validateBase, hpb, hfind]
    rw [if_neg hstat]
  unfold train_model trainStageValidated
  rw [validateBase_update_progress, hval]

/-- C4 counterexample: with the only model in TRAINING status referenced as the
retrain base, the retrain endpoint still accepts the request — no ValidationError is
raised at request time and a PENDING ledger row for the request is created. -/
theorem C4_counterexample_task_created_for_training_base :
    c4BaseModel ∈ c4db.models ∧ c4BaseModel.status = ModelStatus.training ∧
    c4req.base_model_id = some c4BaseModel.id ∧
    retrain_model c4db c4req 7 42 0 =
      Except.ok (retrainAccepted c4db c4req 7 42 0, 42) ∧
    (mkPendingTask c4req 7 42 0).status = TrainingTaskStatus.pending ∧
    mkPendingTask c4req 7 42 0 ∈ (retrainAccepted c4db c4req 7 42 0).tasks := by
  refine ⟨by decide, rfl, rfl, rfl, rfl, by decide⟩

/-- C4 (amended): a retrain request whose base model is in TRAINING status is not
rejected at request time — the endpoint only checks that `base_model_id` is supplied,
creates the PENDING ledger row and returns; the rejection happens inside the
background pipeline's validation stage (base model must be COMPLETED), before any
data is fetched, after which the wrapper marks the ledger row FAILED with that error
message, leaving the models and sessions tables unchanged. -/
theorem C4_amended_rejection_in_pipeline (db : DB) (req : RetrainRequest)
    (user_id task_id : Nat) (now : Int) (env : TrainEnv) (clean : CleanOracle)
    (ml : MLOracle) (t0 t1 : Int) (bid : Nat) (b : ModelVersion)
    (hreq : req.base_model_id = some bid)
    (hfind : db.models.find? (fun m => m.id == bid) = some b)
    (hstat : b.status = ModelStatus.training) :
    retrain_model db req user_id task_id now =
      Except.ok (retrainAccepted db req user_id task_id now, task_id) ∧
    (mkPendingTask req user_id task_id now).status = TrainingTaskStatus.pending ∧
    (run_training_task env clean ml (retrainAccepted db req user_id task_id now)
        (trainParamsOfRequest req user_id) task_id t0 t1).models =
      (retrainAccepted db req user_id task_id now).models ∧
    (run_training_task env clean ml (retrainAccepted db req user_id task_id now)
        (trainParamsOfRequest req user_id) task_id t0 t1).sessions =
      (retrainAccepted db req user_id task_id now).sessions ∧
    ∃ t', t' ∈ (run_training_task env clean ml
        (retrainAccepted db req user_id task_id now)
        (trainParamsOfRequest req user_id) task_id t0 t1).tasks ∧
      t'.id = task_id ∧ t'.status = TrainingTaskStatus.failed ∧
      t'.error_message = some (trainErrorMessage TrainError.baseModelNotCompleted) ∧
      t'.completed_at = some t1 ∧ t'.result_model_id = none := by
  have hretrain : retrain_model db req user_id task_id now =
      Except.ok (retrainAccepted db req user_id task_id now, task_id) := by
    unfold retrain_model
    rw [hreq]
    rfl
  have hstat' : ¬ b.status = ModelStatus.completed := by
    rw [hstat]
    intro hcontra
    exact ModelStatus.noConfusion hcontra
  have herr2 : (train_model env clean ml
      (updateTask (retrainAccepted db req user_id task_id now) task_id
        (taskRunningUpdate t0))
      { trainParamsOfRequest req user_id with task_id := some task_id } t0 t1).2 =
      Except.error TrainError.baseModelNotCompleted :=
    train_model_base_not_completed env clean ml _ _ t0 t1 bid b hreq hfind hstat'
  have hp : train_model env clean ml
      (updateTask (retrainAccepted db req user_id task_id now) task_id
        (taskRunningUpdate t0))
      { trainParamsOfRequest req user_id with task_id := some task_id } t0 t1 =
      ((train_model env clean ml
        (updateTask (retrainAccepted db req user_id task_id now) task_id
          (taskRunningUpdate t0))
        { trainParamsOfRequest req user_id with task_id := some task_id } t0 t1).1,
       Except.error TrainError.baseModelNotCompleted) := by
    rw [← herr2]
  obtain ⟨hm, hs, htasks⟩ := run_training_task_failure env clean ml
    (retrainAccepted db req user_id task_id now) (trainParamsOfRequest req user_id)
    task_id t0 t1 _ TrainError.baseModelNotCompleted hp
  refine ⟨hretrain, rfl, hm, hs, ?_⟩
  have hmem : mkPendingTask req user_id task_id now ∈
      (retrainAccepted db req user_id task_id now).tasks := by
    unfold retrainAccepted
    exact List.mem_append.mpr (Or.inr (List.mem_singleton.mpr rfl))
  obtain ⟨t', h1, h2, h3, h4, h5, h6⟩ := htasks _ hmem rfl
  exact ⟨t', h1, h2, h3, h4, h5, h6⟩

theorem C4_amended_rejection_in_pipeline_witness :
    retrain_model c4db c4req 7 42 0 =
      Except.ok (retrainAccepted c4db c4req 7 42 0, 42) ∧
    (run_training_task envZero cleanId mlOk (retrainAccepted c4db c4req 7 42 0)
        (trainParamsOfRequest c4req 7) 42 0 1).models =
      (retrainAccepted c4db c4req 7 42 0).models ∧
    ∃ t', t' ∈ (run_training_task envZero cleanId mlOk
        (retrainAccepted c4db c4req 7 42 0)
        (trainParamsOfRequest c4req 7) 42 0 1).tasks ∧
      t'.id = 42 ∧ t'.status = TrainingTaskStatus.failed ∧
      t'.error_message = some (trainErrorMessage TrainError.baseModelNotCompleted) ∧
      t'.completed_at = some 1 ∧ t'.result_model_id = none :=
  ⟨(C4_amended_rejection_in_pipeline c4db c4req 7 42 0 envZero cleanId mlOk 0 1 1
      c4BaseModel rfl rfl rfl).1,
   (C4_amended_rejection_in_pipeline c4db c4req 7 42 0 envZero cleanId mlOk 0 1 1
      c4BaseModel rfl rfl rfl).2.2.1,
   (C4_amended_rejection_in_pipeline c4db c4req 7 42 0 envZero cleanId mlOk 0 1 1
      c4BaseModel rfl rfl rfl).2.2.2.2⟩

end AquaForecast
